import Mathlib

/-!
# Verification of the Citus two-phase-commit recovery core

Shallow embedding of `transaction_recovery.c` (the 2PC recovery
coordinator) and the relevant parts of `remote_commands.c` (optional
remote command execution and copy back-pressure), together with proofs
of the specified properties.

Modelling conventions:
* A remote node is a `NodeInfo`: its group id, whether the connection to
  it is usable (`PQstatus(conn->pgConn) == CONNECTION_OK`), and the list
  of transaction gids currently prepared on it (`pg_prepared_xacts`).
* The recovery record store (`pg_dist_transaction`) is a list of
  `RecoveryRecord`s; the index scan by group id becomes a walk over the
  list that skips records of other groups.
* The environment `Env` provides the inputs the pass reads from the
  outside world: the coordinator's local group id, the set of active
  distributed transaction numbers (`ActiveDistributedTransactionNumbers`),
  the outer-transaction oracles (`TransactionIdIsInProgress` /
  `TransactionIdDidCommit`) and, for each COMMIT PREPARED / ROLLBACK
  PREPARED command the pass may issue, whether sending succeeds and
  whether the response is OK.
* Hash sets (`ListToHashSet`) become deduplicated lists with decidable
  membership; `hash_seq_search` iteration order becomes list order.
-/

namespace Citus

/-- One row of `pg_dist_transaction`: group id, gid, and the optional
outer transaction id (a 64-bit full transaction id, NULL modelled as
`none`). -/
structure RecoveryRecord where
  groupId : Int
  gid : String
  outerFullXid : Option Nat
deriving DecidableEq, Repr

/-- A worker node as seen by one recovery pass: its group id, whether
`PQstatus` of the pre-established connection is `CONNECTION_OK`, and the
gids currently prepared on it. -/
structure NodeInfo where
  groupId : Int
  connectionOK : Bool
  prepared : List String
deriving DecidableEq, Repr

/-- External inputs of a recovery pass. -/
structure Env where
  /-- `GetLocalGroupId()` of this coordinator. -/
  coordinatorId : Int
  /-- `ActiveDistributedTransactionNumbers()`: transaction numbers of
  distributed transactions live at snapshot time. -/
  activeXactNumbers : List Nat
  /-- `TransactionIdIsInProgress` for outer transaction ids. -/
  outerInProgress : Nat → Bool
  /-- `TransactionIdDidCommit` for outer transaction ids. -/
  outerDidCommit : Nat → Bool
  /-- Whether `SendRemoteCommand` succeeds for the COMMIT/ROLLBACK
  PREPARED command on the given gid (`true` = commit, `false` =
  rollback). -/
  sendOK : String → Bool → Bool
  /-- Whether the response to that command satisfies `IsResponseOK`. -/
  respOK : String → Bool → Bool

/-! ## Transaction name parsing

`ParsePreparedTransactionName` itself lives in `backend_data.c`, which
is not part of the sources here; only its caller
`IsTransactionInProgress` is. -/

/-- Numeric value of a decimal digit character, `none` otherwise. -/
def digitVal (c : Char) : Option Nat :=
  if c = '0' then some 0
  else if c = '1' then some 1
  else if c = '2' then some 2
  else if c = '3' then some 3
  else if c = '4' then some 4
  else if c = '5' then some 5
  else if c = '6' then some 6
  else if c = '7' then some 7
  else if c = '8' then some 8
  else if c = '9' then some 9
  else none

/-- Parse a non-empty all-digit character list as a natural number. -/
def digitsToNat : List Char → Option Nat
  | [] => none
  | cs => go 0 cs
where
  go : Nat → List Char → Option Nat
    | acc, [] => some acc
    | acc, c :: cs =>
      match digitVal c with
      | some d => go (acc * 10 + d) cs
      | none => none

/-- Split a character list on `'_'` separators. -/
def splitUnderscore : List Char → List (List Char)
  | cs => go cs []
where
  go : List Char → List Char → List (List Char)
    | [], acc => [acc.reverse]
    | c :: cs, acc =>
      if c = '_' then acc.reverse :: go cs [] else go cs (c :: acc)

/-- Modelled from the spec: `ParsePreparedTransactionName` (defined in
`backend_data.c`, which is outside these sources) parses a prepared
transaction name of the form
`citus_<group-id>_<process-id>_<transaction-number>_<connection-number>`
into its numeric components, failing on any other shape. -/
def ParsePreparedTransactionName (name : String) :
    Option (Nat × Nat × Nat × Nat) :=
  match splitUnderscore name.toList with
  | [w, g, p, t, c] =>
    if w = "citus".toList then
      match digitsToNat g, digitsToNat p, digitsToNat t, digitsToNat c with
      | some gn, some pn, some tn, some cn => some (gn, pn, tn, cn)
      | _, _, _, _ => none
    else none
  | _ => none

/-- `IsTransactionInProgress`: whether the distributed transaction the
prepared transaction name belongs to is still in progress; `false` when
the name cannot be parsed. -/
def IsTransactionInProgress (activeXactNumbers : List Nat)
    (preparedTransactionName : String) : Bool :=
  match ParsePreparedTransactionName preparedTransactionName with
  | some (_, _, transactionNumber, _) =>
    decide (transactionNumber ∈ activeXactNumbers)
  | none => false

/-! ## Remote command execution (`remote_commands.c`) -/

/-- Return status of `ExecuteOptionalRemoteCommand` (the constants come
from `remote_commands.h`). -/
inductive RemoteCommandStatus where
  | RESPONSE_OKAY
  | QUERY_SEND_FAILED
  | RESPONSE_NOT_OKAY
deriving DecidableEq, Repr

/-- `ExecuteOptionalRemoteCommand`: sends a command; on send failure
warns and returns `QUERY_SEND_FAILED`; on a not-OK response warns and
returns `RESPONSE_NOT_OKAY`; otherwise returns `RESPONSE_OKAY`, storing
the command result through the caller's pointer only when that pointer
is non-NULL. The caller's result cell is modelled by its contents
`cell`; the returned pair is (status, contents of the cell after the
call). -/
def ExecuteOptionalRemoteCommand (sendOK respOK : Bool)
    (localResult : String) (resultNonNull : Bool) (cell : String) :
    RemoteCommandStatus × String :=
  if !sendOK then
    (RemoteCommandStatus.QUERY_SEND_FAILED, cell)
  else if !respOK then
    (RemoteCommandStatus.RESPONSE_NOT_OKAY, cell)
  else if resultNonNull then
    (RemoteCommandStatus.RESPONSE_OKAY, localResult)
  else
    (RemoteCommandStatus.RESPONSE_OKAY, cell)

/-- `RecoverPreparedTransactionOnWorker`: issue COMMIT PREPARED
(`shouldCommit = true`) or ROLLBACK PREPARED (`shouldCommit = false`)
for the transaction via `ExecuteOptionalRemoteCommand`, reporting
whether the command succeeded. -/
def RecoverPreparedTransactionOnWorker (env : Env) (transactionName : String)
    (shouldCommit : Bool) : Bool :=
  match (ExecuteOptionalRemoteCommand (env.sendOK transactionName shouldCommit)
      (env.respOK transactionName shouldCommit) "" true "").1 with
  | RemoteCommandStatus.QUERY_SEND_FAILED => false
  | RemoteCommandStatus.RESPONSE_NOT_OKAY => false
  | RemoteCommandStatus.RESPONSE_OKAY => true

/-! ## The per-node reconciliation algorithm -/

/-- `XidFromFullTransactionId` of the record's outer xid, with NULL
becoming xid 0 (exactly as in `RecoverWorkerTransactions`). -/
def recordOuterXid (r : RecoveryRecord) : Nat :=
  match r.outerFullXid with
  | none => 0
  | some fullXid => fullXid % 2 ^ 32

/-- The record's outer transaction exists, is still in progress and did
not commit: the prepared transaction must be neither committed nor
aborted this pass. -/
def outerHeldOpen (env : Env) (r : RecoveryRecord) : Bool :=
  recordOuterXid r != 0 &&
    env.outerInProgress (recordOuterXid r) &&
    !env.outerDidCommit (recordOuterXid r)

/-- The record's outer transaction exists, is not in progress and did
not commit: fall back to abort-by-omission (skip the record, leaving
its gid in the pending set). -/
def outerAbandoned (env : Env) (r : RecoveryRecord) : Bool :=
  recordOuterXid r != 0 &&
    !env.outerInProgress (recordOuterXid r) &&
    !env.outerDidCommit (recordOuterXid r)

/-- `hash_search(pendingTransactionSet, name, HASH_REMOVE, ...)`. -/
def removeGid (pending : List String) (g : String) : List String :=
  pending.filter (fun x => x ≠ g)

/-- Result of the record-scan loop of `RecoverWorkerTransactions`. -/
structure ScanResult where
  /-- Prepared transactions committed by the loop. -/
  count : Nat
  /-- COMMIT/ROLLBACK PREPARED commands issued, in order (gid,
  shouldCommit); here always commits. -/
  commands : List (String × Bool)
  /-- Records remaining in `pg_dist_transaction` after the loop
  (i.e. not `simple_heap_delete`d). -/
  keptRecords : List RecoveryRecord
  /-- The pending-transaction hash set after the loop's removals. -/
  pending : List String
  /-- `recoveryFailed`. -/
  failed : Bool
deriving DecidableEq, Repr

/-- The record-scan loop of `RecoverWorkerTransactions` (lines 283-457):
walk the `pg_dist_transaction` scan for this group, decide each record
against the live set, the outer transaction state and the two
prepared-transaction snapshots, committing and deleting as appropriate.
`qset` is the hash set built from the second snapshot; `pending` the
evolving hash set built from the first. -/
def RecordScanPhase (env : Env) (groupId : Int) (qset : List String) :
    List RecoveryRecord → List String → ScanResult
  | [], pending =>
    { count := 0, commands := [], keptRecords := [], pending := pending,
      failed := false }
  | r :: rest, pending =>
    if r.groupId ≠ groupId then
      let res := RecordScanPhase env groupId qset rest pending
      { res with keptRecords := r :: res.keptRecords }
    else if IsTransactionInProgress env.activeXactNumbers r.gid then
      let res := RecordScanPhase env groupId qset rest pending
      { res with keptRecords := r :: res.keptRecords }
    else if outerHeldOpen env r then
      let res := RecordScanPhase env groupId qset rest (removeGid pending r.gid)
      { res with keptRecords := r :: res.keptRecords }
    else if outerAbandoned env r then
      let res := RecordScanPhase env groupId qset rest pending
      { res with keptRecords := r :: res.keptRecords }
    else
      let foundBefore : Bool := decide (r.gid ∈ pending)
      let pending2 := removeGid pending r.gid
      let foundAfter : Bool := decide (r.gid ∈ qset)
      if foundBefore && foundAfter then
        if RecoverPreparedTransactionOnWorker env r.gid true then
          let res := RecordScanPhase env groupId qset rest pending2
          { count := res.count + 1, commands := (r.gid, true) :: res.commands,
            keptRecords := res.keptRecords, pending := res.pending,
            failed := res.failed }
        else
          { count := 0, commands := [(r.gid, true)], keptRecords := r :: rest,
            pending := pending2, failed := true }
      else if foundAfter then
        let res := RecordScanPhase env groupId qset rest pending2
        { res with keptRecords := r :: res.keptRecords }
      else
        RecordScanPhase env groupId qset rest pending2

/-- The remaining-abort loop of `RecoverWorkerTransactions` (lines
462-496): every transaction left in the pending set that is not in
progress is rolled back; a failed rollback stops the loop. Returns
(aborted count, issued commands, failed). -/
def AbortRemainingPhase (env : Env) : List String → Nat × List (String × Bool) × Bool
  | [] => (0, [], false)
  | g :: rest =>
    if IsTransactionInProgress env.activeXactNumbers g then
      AbortRemainingPhase env rest
    else if RecoverPreparedTransactionOnWorker env g false then
      let res := AbortRemainingPhase env rest
      (res.1 + 1, (g, false) :: res.2.1, res.2.2)
    else
      (0, [(g, false)], true)

/-- Result of recovering one worker. -/
structure PassResult where
  count : Nat
  commands : List (String × Bool)
  keptRecords : List RecoveryRecord
deriving DecidableEq, Repr

/-- The reconciliation algorithm of `RecoverWorkerTransactions` given
the two prepared-transaction snapshots `pList` (taken before
`ActiveDistributedTransactionNumbers`) and `qList` (taken after): build
the two hash sets, run the record scan, and, if it did not fail, abort
what remains in the pending set. -/
def RecoverWorkerTransactionsPQ (env : Env) (groupId : Int)
    (records : List RecoveryRecord) (pList qList : List String) : PassResult :=
  let scan := RecordScanPhase env groupId qList.dedup records pList.dedup
  if scan.failed then
    { count := scan.count, commands := scan.commands,
      keptRecords := scan.keptRecords }
  else
    let ab := AbortRemainingPhase env scan.pending
    { count := scan.count + ab.1, commands := scan.commands ++ ab.2.1,
      keptRecords := scan.keptRecords }

/-! ## Node-level and pass-level drivers -/

/-- The `LIKE 'citus\_<coordinatorId>\_%'` filter of
`PendingWorkerTransactionList`'s query. -/
def matchesCoordinatorPattern (coordinatorId : Int) (gid : String) : Bool :=
  ("citus_" ++ coordinatorId.repr ++ "_").toList.isPrefixOf gid.toList

/-- `PendingWorkerTransactionList`: the gids prepared on the node that
were started by this coordinator (the query's LIKE filter; the
`database = current_database()` conjunct is identically true in this
single-database model). -/
def PendingWorkerTransactionList (coordinatorId : Int)
    (prepared : List String) : List String :=
  prepared.filter (fun g => matchesCoordinatorPattern coordinatorId g)

/-- Whether an issued command actually succeeded on the worker. -/
def CommandSucceeded (env : Env) (c : String × Bool) : Bool :=
  RecoverPreparedTransactionOnWorker env c.1 c.2

/-- Gids whose COMMIT/ROLLBACK PREPARED succeeded, hence which are no
longer prepared on the worker afterwards. -/
def ResolvedGids (env : Env) (cmds : List (String × Bool)) : List String :=
  (cmds.filter (fun c => CommandSucceeded env c)).map Prod.fst

/-- Result of `RecoverWorkerTransactions` for one node, together with
the record store and node state after the call. -/
structure NodeOutcome where
  count : Nat
  commands : List (String × Bool)
  records : List RecoveryRecord
  node : NodeInfo
  warned : Bool
deriving DecidableEq, Repr

/-- `RecoverWorkerTransactions`: bail out with a warning if the
connection is not usable; otherwise take the two snapshots (equal here:
the node state does not change between the two queries of a quiescent
model) and reconcile. Successful commands remove their gid from the
worker's prepared set. -/
def RecoverWorkerTransactions (env : Env) (node : NodeInfo)
    (records : List RecoveryRecord) : NodeOutcome :=
  if !node.connectionOK then
    { count := 0, commands := [], records := records, node := node,
      warned := true }
  else
    let pList := PendingWorkerTransactionList env.coordinatorId node.prepared
    let res := RecoverWorkerTransactionsPQ env node.groupId records pList pList
    let resolved := ResolvedGids env res.commands
    { count := res.count, commands := res.commands,
      records := res.keptRecords,
      node := { node with
                prepared := node.prepared.filter (fun g => g ∉ resolved) },
      warned := false }

/-- Result of one whole recovery pass. -/
structure PassOutcome where
  count : Nat
  records : List RecoveryRecord
  nodes : List NodeInfo
  /-- Per node, in node order: (transactions recovered there, whether a
  connection warning was emitted for it). -/
  perNode : List (Nat × Bool)
deriving DecidableEq, Repr

/-- `RecoverTwoPhaseCommits`: recover every worker in node-list order,
summing the recovered counts; a failure on one node never prevents the
remaining nodes from being processed. -/
def RecoverTwoPhaseCommits (env : Env) :
    List RecoveryRecord → List NodeInfo → PassOutcome
  | records, [] =>
    { count := 0, records := records, nodes := [], perNode := [] }
  | records, node :: rest =>
    let nres := RecoverWorkerTransactions env node records
    let tail := RecoverTwoPhaseCommits env nres.records rest
    { count := nres.count + tail.count, records := tail.records,
      nodes := nres.node :: tail.nodes,
      perNode := (nres.count, nres.warned) :: tail.perNode }

/-! ## Error-raising variants

`PendingWorkerTransactionList` raises an ERROR when the query cannot be
sent (which `SendRemoteCommand` reports exactly when the connection is
not in `CONNECTION_OK` state). `RecoverWorkerTransactions` guards
against that by checking the connection first, which is what makes the
entry point total. The `Except`-valued variants make the ERROR path
explicit so that "never raises" is a provable statement. -/

/-- `PendingWorkerTransactionList` with its ERROR path explicit. -/
def PendingWorkerTransactionListE (env : Env) (node : NodeInfo) :
    Except String (List String) :=
  if !node.connectionOK then
    Except.error "connection error"
  else
    Except.ok (PendingWorkerTransactionList env.coordinatorId node.prepared)

/-- `RecoverWorkerTransactions` with the ERROR path of
`PendingWorkerTransactionList` explicit. -/
def RecoverWorkerTransactionsE (env : Env) (node : NodeInfo)
    (records : List RecoveryRecord) : Except String NodeOutcome :=
  if !node.connectionOK then
    Except.ok { count := 0, commands := [], records := records, node := node,
                warned := true }
  else
    match PendingWorkerTransactionListE env node with
    | Except.error e => Except.error e
    | Except.ok pList =>
      let res := RecoverWorkerTransactionsPQ env node.groupId records pList pList
      let resolved := ResolvedGids env res.commands
      Except.ok
        { count := res.count, commands := res.commands,
          records := res.keptRecords,
          node := { node with
                    prepared := node.prepared.filter (fun g => g ∉ resolved) },
          warned := false }

/-- `RecoverTwoPhaseCommits` with the ERROR paths explicit. -/
def RecoverTwoPhaseCommitsE (env : Env) :
    List RecoveryRecord → List NodeInfo → Except String PassOutcome
  | records, [] =>
    Except.ok { count := 0, records := records, nodes := [], perNode := [] }
  | records, node :: rest =>
    match RecoverWorkerTransactionsE env node records with
    | Except.error e => Except.error e
    | Except.ok nres =>
      match RecoverTwoPhaseCommitsE env nres.records rest with
      | Except.error e => Except.error e
      | Except.ok tail =>
        Except.ok
          { count := nres.count + tail.count, records := tail.records,
            nodes := nres.node :: tail.nodes,
            perNode := (nres.count, nres.warned) :: tail.perNode }

/-! ## Copy back-pressure (`remote_commands.c`) -/

/-- `RemoteCopyFlushThreshold`: how many bytes of COPY data libpq may
buffer before a forced flush (default 8 MiB). -/
def RemoteCopyFlushThreshold : Int := 8 * 1024 * 1024

/-- Reduction of a mathematical integer to the C `int` (two's-complement
32-bit) value produced by wrap-around. -/
def wrapInt32 (x : Int) : Int := (x + 2 ^ 31) % 2 ^ 32 - 2 ^ 31

/-- Per-connection state used by the copy primitive. -/
structure CopyConnState where
  connectionOK : Bool
  copyBytesWrittenSinceLastFlush : Int
deriving DecidableEq, Repr

/-- `PutRemoteCopyData`: fail fast on a bad connection or a failed
`PQputCopyData`; otherwise add `nbytes` to the per-connection
unflushed-byte counter and, when the counter exceeds
`RemoteCopyFlushThreshold`, reset it to zero and perform one blocking
flush (`FinishConnectionIO`, whose success is `flushOK`). Returns
(overall success, new connection state, number of flushes performed). -/
def PutRemoteCopyData (conn : CopyConnState) (nbytes : Int)
    (putOK flushOK : Bool) : Bool × CopyConnState × Nat :=
  if !conn.connectionOK then
    (false, conn, 0)
  else if !putOK then
    (false, conn, 0)
  else
    let counter := wrapInt32 (conn.copyBytesWrittenSinceLastFlush + nbytes)
    if counter > RemoteCopyFlushThreshold then
      (flushOK, { conn with copyBytesWrittenSinceLastFlush := 0 }, 1)
    else
      (true, { conn with copyBytesWrittenSinceLastFlush := counter }, 0)

end Citus

namespace Citus

/-! ## Basic facts -/

lemma wrapInt32_eq_self (x : Int) (h0 : 0 ≤ x) (h1 : x < 2 ^ 31) :
    wrapInt32 x = x := by
  unfold wrapInt32
  rw [Int.emod_eq_of_lt (by omega) (by omega)]
  omega

/-- C9: a transaction name that does not parse into its
coordinator/group/process/transaction/connection components is never
treated as belonging to a live transaction. -/
theorem unparsable_name_never_in_progress (activeXactNumbers : List Nat)
    (name : String) (h : ParsePreparedTransactionName name = none) :
    IsTransactionInProgress activeXactNumbers name = false := by
  unfold IsTransactionInProgress
  rw [h]

theorem unparsable_name_never_in_progress_witness :
    IsTransactionInProgress [7] "garbage" = false :=
  unparsable_name_never_in_progress [7] "garbage" (by decide)

/-- C10: `ExecuteOptionalRemoteCommand` returns exactly one of
`RESPONSE_OKAY`, `QUERY_SEND_FAILED` and `RESPONSE_NOT_OKAY`; the
caller's result cell is written only in the `RESPONSE_OKAY` case with a
non-NULL result pointer, and is left unmodified on either failure
return (and also when the pointer is NULL). -/
theorem execute_optional_remote_command_contract (sendOK respOK : Bool)
    (localResult cell : String) (resultNonNull : Bool)
    (out : RemoteCommandStatus × String)
    (hout : out = ExecuteOptionalRemoteCommand sendOK respOK localResult
      resultNonNull cell) :
    (out.1 = RemoteCommandStatus.RESPONSE_OKAY ∨
      out.1 = RemoteCommandStatus.QUERY_SEND_FAILED ∨
      out.1 = RemoteCommandStatus.RESPONSE_NOT_OKAY) ∧
    (out.1 ≠ RemoteCommandStatus.RESPONSE_OKAY → out.2 = cell) ∧
    (resultNonNull = false → out.2 = cell) ∧
    (out.1 = RemoteCommandStatus.RESPONSE_OKAY → resultNonNull = true →
      out.2 = localResult) := by
  subst hout
  cases sendOK <;> cases respOK <;> cases resultNonNull <;>
    simp [ExecuteOptionalRemoteCommand]

theorem execute_optional_remote_command_contract_witness :
    (ExecuteOptionalRemoteCommand false true "r" true "c").2 = "c" :=
  (execute_optional_remote_command_contract false true "r" "c" true _ rfl).2.1
    (by decide)

/-- C8: a successful streaming copy write adds the written bytes to the
per-connection unflushed counter; when the counter exceeds
`RemoteCopyFlushThreshold` the primitive performs exactly one blocking
flush and resets the counter to zero, and otherwise performs no flush;
consequently the stored counter never exceeds the threshold, and the
peak of unflushed bytes never exceeds threshold plus one write's worth. -/
theorem put_remote_copy_data_back_pressure (conn : CopyConnState)
    (nbytes : Int) (flushOK : Bool) (out : Bool × CopyConnState × Nat)
    (hout : out = PutRemoteCopyData conn nbytes true flushOK)
    (hconn : conn.connectionOK = true)
    (hcnt0 : 0 ≤ conn.copyBytesWrittenSinceLastFlush)
    (hcnt1 : conn.copyBytesWrittenSinceLastFlush ≤ RemoteCopyFlushThreshold)
    (hn : 0 ≤ nbytes)
    (hnoflow : conn.copyBytesWrittenSinceLastFlush + nbytes < 2 ^ 31) :
    (conn.copyBytesWrittenSinceLastFlush + nbytes > RemoteCopyFlushThreshold →
      out.2.2 = 1 ∧ out.2.1.copyBytesWrittenSinceLastFlush = 0 ∧
        out.1 = flushOK) ∧
    (conn.copyBytesWrittenSinceLastFlush + nbytes ≤ RemoteCopyFlushThreshold →
      out.2.2 = 0 ∧
        out.2.1.copyBytesWrittenSinceLastFlush =
          conn.copyBytesWrittenSinceLastFlush + nbytes ∧
        out.1 = true) ∧
    out.2.1.copyBytesWrittenSinceLastFlush ≤ RemoteCopyFlushThreshold ∧
    conn.copyBytesWrittenSinceLastFlush + nbytes ≤
      RemoteCopyFlushThreshold + nbytes := by
  subst hout
  simp only [PutRemoteCopyData, hconn, Bool.not_true, Bool.false_eq_true,
    if_false]
  rw [wrapInt32_eq_self _ (by omega) (by omega)]
  by_cases hgt :
      conn.copyBytesWrittenSinceLastFlush + nbytes > RemoteCopyFlushThreshold
  · simp only [if_pos hgt]
    refine ⟨fun _ => by simp, fun hle => absurd hgt (by omega), ?_, by omega⟩
    simp [RemoteCopyFlushThreshold]
  · simp only [if_neg hgt]
    refine ⟨fun h => absurd h hgt, fun _ => by simp, ?_, by omega⟩
    simpa using (by omega :
      conn.copyBytesWrittenSinceLastFlush + nbytes ≤ RemoteCopyFlushThreshold)

theorem put_remote_copy_data_back_pressure_witness :
    (PutRemoteCopyData ⟨true, 8388608⟩ 1 true true).2.2 = 1 ∧
    (PutRemoteCopyData ⟨true, 8388608⟩ 1 true
      true).2.1.copyBytesWrittenSinceLastFlush = 0 ∧
    (PutRemoteCopyData ⟨true, 8388608⟩ 1 true true).1 = true :=
  (put_remote_copy_data_back_pressure ⟨true, 8388608⟩ 1 true _ rfl rfl
    (by decide) (by decide) (by decide) (by decide)).1 (by decide)

end Citus

namespace Citus

/-! ## Unfolding lemmas for the record-scan loop -/

lemma scan_nil (env : Env) (G : Int) (q p : List String) :
    RecordScanPhase env G q [] p =
      { count := 0, commands := [], keptRecords := [], pending := p,
        failed := false } := rfl

lemma scan_cons_other (env : Env) (G : Int) (q : List String)
    (r : RecoveryRecord) (rest : List RecoveryRecord) (p : List String)
    (hg : r.groupId ≠ G) :
    RecordScanPhase env G q (r :: rest) p =
      { RecordScanPhase env G q rest p with
        keptRecords := r :: (RecordScanPhase env G q rest p).keptRecords } := by
  rw [RecordScanPhase]
  rw [if_pos hg]

lemma scan_cons_inprog (env : Env) (G : Int) (q : List String)
    (r : RecoveryRecord) (rest : List RecoveryRecord) (p : List String)
    (hg : r.groupId = G)
    (hip : IsTransactionInProgress env.activeXactNumbers r.gid = true) :
    RecordScanPhase env G q (r :: rest) p =
      { RecordScanPhase env G q rest p with
        keptRecords := r :: (RecordScanPhase env G q rest p).keptRecords } := by
  rw [RecordScanPhase]
  rw [if_neg (by simp [hg]), if_pos hip]

lemma scan_cons_held (env : Env) (G : Int) (q : List String)
    (r : RecoveryRecord) (rest : List RecoveryRecord) (p : List String)
    (hg : r.groupId = G)
    (hip : IsTransactionInProgress env.activeXactNumbers r.gid = false)
    (hh : outerHeldOpen env r = true) :
    RecordScanPhase env G q (r :: rest) p =
      { RecordScanPhase env G q rest (removeGid p r.gid) with
        keptRecords :=
          r :: (RecordScanPhase env G q rest (removeGid p r.gid)).keptRecords } := by
  rw [RecordScanPhase]
  rw [if_neg (by simp [hg]), if_neg (by simp [hip]), if_pos hh]

lemma scan_cons_abandoned (env : Env) (G : Int) (q : List String)
    (r : RecoveryRecord) (rest : List RecoveryRecord) (p : List String)
    (hg : r.groupId = G)
    (hip : IsTransactionInProgress env.activeXactNumbers r.gid = false)
    (hh : outerHeldOpen env r = false)
    (ha : outerAbandoned env r = true) :
    RecordScanPhase env G q (r :: rest) p =
      { RecordScanPhase env G q rest p with
        keptRecords := r :: (RecordScanPhase env G q rest p).keptRecords } := by
  rw [RecordScanPhase]
  rw [if_neg (by simp [hg]), if_neg (by simp [hip]), if_neg (by simp [hh]),
    if_pos ha]

lemma scan_cons_commit (env : Env) (G : Int) (q : List String)
    (r : RecoveryRecord) (rest : List RecoveryRecord) (p : List String)
    (hg : r.groupId = G)
    (hip : IsTransactionInProgress env.activeXactNumbers r.gid = false)
    (hh : outerHeldOpen env r = false)
    (ha : outerAbandoned env r = false)
    (hp : r.gid ∈ p) (hq : r.gid ∈ q)
    (hrec : RecoverPreparedTransactionOnWorker env r.gid true = true) :
    RecordScanPhase env G q (r :: rest) p =
      { count := (RecordScanPhase env G q rest (removeGid p r.gid)).count + 1,
        commands :=
          (r.gid, true) ::
            (RecordScanPhase env G q rest (removeGid p r.gid)).commands,
        keptRecords := (RecordScanPhase env G q rest (removeGid p r.gid)).keptRecords,
        pending := (RecordScanPhase env G q rest (removeGid p r.gid)).pending,
        failed := (RecordScanPhase env G q rest (removeGid p r.gid)).failed } := by
  rw [RecordScanPhase]
  rw [if_neg (by simp [hg]), if_neg (by simp [hip]), if_neg (by simp [hh]),
    if_neg (by simp [ha])]
  simp [hp, hq, hrec]

lemma scan_cons_commit_fail (env : Env) (G : Int) (q : List String)
    (r : RecoveryRecord) (rest : List RecoveryRecord) (p : List String)
    (hg : r.groupId = G)
    (hip : IsTransactionInProgress env.activeXactNumbers r.gid = false)
    (hh : outerHeldOpen env r = false)
    (ha : outerAbandoned env r = false)
    (hp : r.gid ∈ p) (hq : r.gid ∈ q)
    (hrec : RecoverPreparedTransactionOnWorker env r.gid true = false) :
    RecordScanPhase env G q (r :: rest) p =
      { count := 0, commands := [(r.gid, true)], keptRecords := r :: rest,
        pending := removeGid p r.gid, failed := true } := by
  rw [RecordScanPhase]
  rw [if_neg (by simp [hg]), if_neg (by simp [hip]), if_neg (by simp [hh]),
    if_neg (by simp [ha])]
  simp [hp, hq, hrec]

lemma scan_cons_qonly (env : Env) (G : Int) (q : List String)
    (r : RecoveryRecord) (rest : List RecoveryRecord) (p : List String)
    (hg : r.groupId = G)
    (hip : IsTransactionInProgress env.activeXactNumbers r.gid = false)
    (hh : outerHeldOpen env r = false)
    (ha : outerAbandoned env r = false)
    (hp : r.gid ∉ p) (hq : r.gid ∈ q) :
    RecordScanPhase env G q (r :: rest) p =
      { RecordScanPhase env G q rest (removeGid p r.gid) with
        keptRecords :=
          r :: (RecordScanPhase env G q rest (removeGid p r.gid)).keptRecords } := by
  rw [RecordScanPhase]
  rw [if_neg (by simp [hg]), if_neg (by simp [hip]), if_neg (by simp [hh]),
    if_neg (by simp [ha])]
  simp [hp, hq]

lemma scan_cons_delete (env : Env) (G : Int) (q : List String)
    (r : RecoveryRecord) (rest : List RecoveryRecord) (p : List String)
    (hg : r.groupId = G)
    (hip : IsTransactionInProgress env.activeXactNumbers r.gid = false)
    (hh : outerHeldOpen env r = false)
    (ha : outerAbandoned env r = false)
    (hq : r.gid ∉ q) :
    RecordScanPhase env G q (r :: rest) p =
      RecordScanPhase env G q rest (removeGid p r.gid) := by
  rw [RecordScanPhase]
  rw [if_neg (by simp [hg]), if_neg (by simp [hip]), if_neg (by simp [hh]),
    if_neg (by simp [ha])]
  simp [hq]

end Citus

namespace Citus

/-- Case-analysis principle for the record-scan loop: to prove a
property of `RecordScanPhase` it suffices to handle its six execution
shapes (empty scan; record kept with the pending set untouched; record
kept with the record's gid removed from the pending set; successful
commit; failed commit; silent record deletion). -/
lemma scan_cases (env : Env) (G : Int) (q : List String)
    (motive : List RecoveryRecord → List String → ScanResult → Prop)
    (hnil : ∀ p, motive [] p
      { count := 0, commands := [], keptRecords := [], pending := p,
        failed := false })
    (hkeep : ∀ r rest p,
      (r.groupId ≠ G ∨ IsTransactionInProgress env.activeXactNumbers r.gid = true ∨
        outerAbandoned env r = true) →
      motive rest p (RecordScanPhase env G q rest p) →
      motive (r :: rest) p
        { RecordScanPhase env G q rest p with
          keptRecords := r :: (RecordScanPhase env G q rest p).keptRecords })
    (hkeeprm : ∀ r rest p, r.groupId = G →
      IsTransactionInProgress env.activeXactNumbers r.gid = false →
      (outerHeldOpen env r = true ∨
        (outerHeldOpen env r = false ∧ outerAbandoned env r = false ∧
          r.gid ∉ p ∧ r.gid ∈ q)) →
      motive rest (removeGid p r.gid)
        (RecordScanPhase env G q rest (removeGid p r.gid)) →
      motive (r :: rest) p
        { RecordScanPhase env G q rest (removeGid p r.gid) with
          keptRecords :=
            r :: (RecordScanPhase env G q rest (removeGid p r.gid)).keptRecords })
    (hcommit : ∀ r rest p, r.groupId = G →
      IsTransactionInProgress env.activeXactNumbers r.gid = false →
      outerHeldOpen env r = false → outerAbandoned env r = false →
      r.gid ∈ p → r.gid ∈ q →
      RecoverPreparedTransactionOnWorker env r.gid true = true →
      motive rest (removeGid p r.gid)
        (RecordScanPhase env G q rest (removeGid p r.gid)) →
      motive (r :: rest) p
        { count := (RecordScanPhase env G q rest (removeGid p r.gid)).count + 1,
          commands := (r.gid, true) ::
            (RecordScanPhase env G q rest (removeGid p r.gid)).commands,
          keptRecords :=
            (RecordScanPhase env G q rest (removeGid p r.gid)).keptRecords,
          pending := (RecordScanPhase env G q rest (removeGid p r.gid)).pending,
          failed := (RecordScanPhase env G q rest (removeGid p r.gid)).failed })
    (hfail : ∀ r rest p, r.groupId = G →
      IsTransactionInProgress env.activeXactNumbers r.gid = false →
      outerHeldOpen env r = false → outerAbandoned env r = false →
      r.gid ∈ p → r.gid ∈ q →
      RecoverPreparedTransactionOnWorker env r.gid true = false →
      motive (r :: rest) p
        { count := 0, commands := [(r.gid, true)], keptRecords := r :: rest,
          pending := removeGid p r.gid, failed := true })
    (hdelete : ∀ r rest p, r.groupId = G →
      IsTransactionInProgress env.activeXactNumbers r.gid = false →
      outerHeldOpen env r = false → outerAbandoned env r = false →
      r.gid ∉ q →
      motive rest (removeGid p r.gid)
        (RecordScanPhase env G q rest (removeGid p r.gid)) →
      motive (r :: rest) p
        (RecordScanPhase env G q rest (removeGid p r.gid))) :
    ∀ records p, motive records p (RecordScanPhase env G q records p) := by
  intro records
  induction records with
  | nil =>
    intro p
    rw [scan_nil]
    exact hnil p
  | cons r rest ih =>
    intro p
    by_cases hg : r.groupId = G
    case neg =>
      rw [scan_cons_other env G q r rest p hg]
      exact hkeep r rest p (Or.inl hg) (ih p)
    case pos =>
      cases hip : IsTransactionInProgress env.activeXactNumbers r.gid
      case true =>
        rw [scan_cons_inprog env G q r rest p hg hip]
        exact hkeep r rest p (Or.inr (Or.inl hip)) (ih p)
      case false =>
        cases hh : outerHeldOpen env r
        case true =>
          rw [scan_cons_held env G q r rest p hg hip hh]
          exact hkeeprm r rest p hg hip (Or.inl hh) (ih _)
        case false =>
          cases ha : outerAbandoned env r
          case true =>
            rw [scan_cons_abandoned env G q r rest p hg hip hh ha]
            exact hkeep r rest p (Or.inr (Or.inr ha)) (ih p)
          case false =>
            by_cases hq2 : r.gid ∈ q
            case pos =>
              by_cases hp2 : r.gid ∈ p
              case pos =>
                cases hrec : RecoverPreparedTransactionOnWorker env r.gid true
                case true =>
                  rw [scan_cons_commit env G q r rest p hg hip hh ha hp2 hq2 hrec]
                  exact hcommit r rest p hg hip hh ha hp2 hq2 hrec (ih _)
                case false =>
                  rw [scan_cons_commit_fail env G q r rest p hg hip hh ha hp2
                    hq2 hrec]
                  exact hfail r rest p hg hip hh ha hp2 hq2 hrec
              case neg =>
                rw [scan_cons_qonly env G q r rest p hg hip hh ha hp2 hq2]
                exact hkeeprm r rest p hg hip (Or.inr ⟨hh, ha, hp2, hq2⟩) (ih _)
            case neg =>
              rw [scan_cons_delete env G q r rest p hg hip hh ha hq2]
              exact hdelete r rest p hg hip hh ha hq2 (ih _)

end Citus

namespace Citus

/-! ## Structural facts about the scan and abort loops -/

lemma removeGid_subset (p : List String) (g : String) : removeGid p g ⊆ p :=
  fun _ hx => (List.mem_filter.mp hx).1

lemma mem_removeGid (p : List String) (g x : String) :
    x ∈ removeGid p g ↔ x ∈ p ∧ x ≠ g := by
  simp [removeGid]

lemma scan_kept_sublist (env : Env) (G : Int) (q : List String) :
    ∀ records p,
      List.Sublist (RecordScanPhase env G q records p).keptRecords records := by
  refine scan_cases env G q
    (fun records _ res => List.Sublist res.keptRecords records) ?_ ?_ ?_ ?_ ?_ ?_
  · intro p
    simp
  · intro r rest p _ ih
    exact ih.cons₂ r
  · intro r rest p _ _ _ ih
    exact ih.cons₂ r
  · intro r rest p _ _ _ _ _ _ _ ih
    exact ih.cons r
  · intro r rest p _ _ _ _ _ _ _
    exact List.Sublist.refl _
  · intro r rest p _ _ _ _ _ ih
    exact ih.cons r

lemma scan_commands_not_live (env : Env) (G : Int) (q : List String) :
    ∀ records p,
      ∀ c ∈ (RecordScanPhase env G q records p).commands,
        IsTransactionInProgress env.activeXactNumbers c.1 = false := by
  refine scan_cases env G q
    (fun _ _ res => ∀ c ∈ res.commands,
      IsTransactionInProgress env.activeXactNumbers c.1 = false) ?_ ?_ ?_ ?_ ?_ ?_
  · intro p c hc
    simp at hc
  · intro r rest p _ ih
    exact ih
  · intro r rest p _ _ _ ih
    exact ih
  · intro r rest p _ hip _ _ _ _ _ ih c hc
    rcases List.mem_cons.mp hc with rfl | hc'
    · exact hip
    · exact ih c hc'
  · intro r rest p _ hip _ _ _ _ _ c hc
    rcases List.mem_cons.mp hc with rfl | hc'
    · exact hip
    · simp at hc'
  · intro r rest p _ _ _ _ _ ih
    exact ih

lemma abort_commands_not_live (env : Env) :
    ∀ pending, ∀ c ∈ (AbortRemainingPhase env pending).2.1,
      IsTransactionInProgress env.activeXactNumbers c.1 = false := by
  intro pending
  induction pending with
  | nil => intro c hc; simp [AbortRemainingPhase] at hc
  | cons g rest ih =>
    intro c hc
    unfold AbortRemainingPhase at hc
    by_cases hip : IsTransactionInProgress env.activeXactNumbers g = true
    · rw [if_pos hip] at hc
      exact ih c hc
    · rw [if_neg hip] at hc
      rw [Bool.not_eq_true] at hip
      cases hrec : RecoverPreparedTransactionOnWorker env g false
      · rw [hrec] at hc
        simp only [Bool.false_eq_true, if_false] at hc
        rcases List.mem_cons.mp hc with rfl | hc'
        · exact hip
        · simp at hc'
      · rw [hrec] at hc
        simp only [if_true] at hc
        rcases List.mem_cons.mp hc with rfl | hc'
        · exact hip
        · exact ih c hc'

lemma scan_pending_subset (env : Env) (G : Int) (q : List String) :
    ∀ records p, (RecordScanPhase env G q records p).pending ⊆ p := by
  refine scan_cases env G q (fun _ p res => res.pending ⊆ p) ?_ ?_ ?_ ?_ ?_ ?_
  · intro p
    exact fun x hx => hx
  · intro r rest p _ ih
    exact ih
  · intro r rest p _ _ _ ih
    exact ih.trans (removeGid_subset p r.gid)
  · intro r rest p _ _ _ _ _ _ _ ih
    exact ih.trans (removeGid_subset p r.gid)
  · intro r rest p _ _ _ _ _ _ _
    exact removeGid_subset p r.gid
  · intro r rest p _ _ _ _ _ ih
    exact ih.trans (removeGid_subset p r.gid)

lemma scan_commands_gid_mem (env : Env) (G : Int) (q : List String) :
    ∀ records p,
      ∀ c ∈ (RecordScanPhase env G q records p).commands, c.1 ∈ p := by
  refine scan_cases env G q
    (fun _ p res => ∀ c ∈ res.commands, c.1 ∈ p) ?_ ?_ ?_ ?_ ?_ ?_
  · intro p c hc
    simp at hc
  · intro r rest p _ ih
    exact ih
  · intro r rest p _ _ _ ih c hc
    exact removeGid_subset p r.gid (ih c hc)
  · intro r rest p _ _ _ _ hp _ _ ih c hc
    rcases List.mem_cons.mp hc with rfl | hc'
    · exact hp
    · exact removeGid_subset p r.gid (ih c hc')
  · intro r rest p _ _ _ _ hp _ _ c hc
    rcases List.mem_cons.mp hc with rfl | hc'
    · exact hp
    · simp at hc'
  · intro r rest p _ _ _ _ _ ih c hc
    exact removeGid_subset p r.gid (ih c hc)

lemma abort_commands_gid_mem (env : Env) :
    ∀ pending, ∀ c ∈ (AbortRemainingPhase env pending).2.1, c.1 ∈ pending := by
  intro pending
  induction pending with
  | nil => intro c hc; simp [AbortRemainingPhase] at hc
  | cons g rest ih =>
    intro c hc
    unfold AbortRemainingPhase at hc
    by_cases hip : IsTransactionInProgress env.activeXactNumbers g = true
    · rw [if_pos hip] at hc
      exact List.mem_cons_of_mem g (ih c hc)
    · rw [if_neg hip] at hc
      cases hrec : RecoverPreparedTransactionOnWorker env g false
      · rw [hrec] at hc
        simp only [Bool.false_eq_true, if_false] at hc
        rcases List.mem_cons.mp hc with rfl | hc'
        · exact List.mem_cons_self g rest
        · simp at hc'
      · rw [hrec] at hc
        simp only [if_true] at hc
        rcases List.mem_cons.mp hc with rfl | hc'
        · exact List.mem_cons_self g rest
        · exact List.mem_cons_of_mem g (ih c hc')

lemma scan_kept_of_not_pending (env : Env) (G : Int) (q : List String) :
    ∀ records p,
      ∀ r0 ∈ records, r0.gid ∈ q → r0.gid ∉ p →
        r0 ∈ (RecordScanPhase env G q records p).keptRecords := by
  refine scan_cases env G q
    (fun records p res =>
      ∀ r0 ∈ records, r0.gid ∈ q → r0.gid ∉ p → r0 ∈ res.keptRecords)
    ?_ ?_ ?_ ?_ ?_ ?_
  · intro p r0 h
    simp at h
  · intro r rest p _ ih r0 hr0 hq0 hp0
    rcases List.mem_cons.mp hr0 with rfl | hr0'
    · exact List.mem_cons_self _ _
    · exact List.mem_cons_of_mem r (ih r0 hr0' hq0 hp0)
  · intro r rest p _ _ _ ih r0 hr0 hq0 hp0
    rcases List.mem_cons.mp hr0 with rfl | hr0'
    · exact List.mem_cons_self _ _
    · exact List.mem_cons_of_mem r
        (ih r0 hr0' hq0 (fun hm => hp0 (removeGid_subset p r.gid hm)))
  · intro r rest p _ _ _ _ hp _ _ ih r0 hr0 hq0 hp0
    rcases List.mem_cons.mp hr0 with rfl | hr0'
    · exact absurd hp hp0
    · exact ih r0 hr0' hq0 (fun hm => hp0 (removeGid_subset p r.gid hm))
  · intro r rest p _ _ _ _ _ _ _ r0 hr0 hq0 hp0
    exact hr0
  · intro r rest p _ _ _ _ hq ih r0 hr0 hq0 hp0
    rcases List.mem_cons.mp hr0 with rfl | hr0'
    · exact absurd hq0 hq
    · exact ih r0 hr0' hq0 (fun hm => hp0 (removeGid_subset p r.gid hm))

end Citus

namespace Citus

/-- Example environment: every node reachable, every command succeeds,
transaction number 55 currently executing. -/
def envLive : Env :=
  { coordinatorId := 0, activeXactNumbers := [55],
    outerInProgress := fun _ => false, outerDidCommit := fun _ => true,
    sendOK := fun _ _ => true, respOK := fun _ _ => true }

/-- C3: the pass never issues COMMIT PREPARED or ROLLBACK PREPARED, in
either the record-scan phase or the remaining-abort phase, for a
prepared transaction whose parsed transaction number is in the live
transaction set at snapshot time. -/
theorem live_transaction_never_touched (env : Env) (G : Int)
    (records : List RecoveryRecord) (pList qList : List String)
    (g : String) (b : Bool) (gn pn tn cn : Nat) (res : PassResult)
    (hres : res = RecoverWorkerTransactionsPQ env G records pList qList)
    (hparse : ParsePreparedTransactionName g = some (gn, pn, tn, cn))
    (hlive : tn ∈ env.activeXactNumbers) :
    (g, b) ∉ res.commands := by
  subst hres
  have hip : IsTransactionInProgress env.activeXactNumbers g = true := by
    unfold IsTransactionInProgress
    rw [hparse]
    simpa using hlive
  intro hc
  unfold RecoverWorkerTransactionsPQ at hc
  by_cases hf : (RecordScanPhase env G qList.dedup records pList.dedup).failed
  · rw [if_pos hf] at hc
    have := scan_commands_not_live env G qList.dedup records pList.dedup
      (g, b) hc
    rw [hip] at this
    exact Bool.true_eq_false.mp this
  · rw [if_neg hf] at hc
    rcases List.mem_append.mp hc with hc' | hc'
    · have := scan_commands_not_live env G qList.dedup records pList.dedup
        (g, b) hc'
      rw [hip] at this
      exact Bool.true_eq_false.mp this
    · have := abort_commands_not_live env
        (RecordScanPhase env G qList.dedup records pList.dedup).pending
        (g, b) hc'
      rw [hip] at this
      exact Bool.true_eq_false.mp this

theorem live_transaction_never_touched_witness :
    ("citus_0_123_55_3", false) ∉
      (RecoverWorkerTransactionsPQ envLive 0 [] ["citus_0_123_55_3"]
        ["citus_0_123_55_3"]).commands :=
  live_transaction_never_touched envLive 0 [] ["citus_0_123_55_3"]
    ["citus_0_123_55_3"] "citus_0_123_55_3" false 0 123 55 3 _ rfl
    (by decide) (by decide)

/-- C4: a recovery record whose gid appears in the second
prepared-transaction snapshot but not in the first is neither committed
nor aborted this pass, and its record is not deleted: both are left for
the next pass. -/
theorem q_only_record_left_for_next_pass (env : Env) (G : Int)
    (records : List RecoveryRecord) (pList qList : List String)
    (r : RecoveryRecord) (res : PassResult)
    (hres : res = RecoverWorkerTransactionsPQ env G records pList qList)
    (hmem : r ∈ records) (hq : r.gid ∈ qList) (hp : r.gid ∉ pList) :
    (∀ b, (r.gid, b) ∉ res.commands) ∧ r ∈ res.keptRecords := by
  subst hres
  constructor
  · intro b hc
    unfold RecoverWorkerTransactionsPQ at hc
    by_cases hf : (RecordScanPhase env G qList.dedup records pList.dedup).failed
    · rw [if_pos hf] at hc
      have := scan_commands_gid_mem env G qList.dedup records pList.dedup
        (r.gid, b) hc
      exact hp (List.mem_dedup.mp this)
    · rw [if_neg hf] at hc
      rcases List.mem_append.mp hc with hc' | hc'
      · have := scan_commands_gid_mem env G qList.dedup records pList.dedup
          (r.gid, b) hc'
        exact hp (List.mem_dedup.mp this)
      · have := abort_commands_gid_mem env
          (RecordScanPhase env G qList.dedup records pList.dedup).pending
          (r.gid, b) hc'
        have := scan_pending_subset env G qList.dedup records pList.dedup this
        exact hp (List.mem_dedup.mp this)
  · have hkept := scan_kept_of_not_pending env G qList.dedup records pList.dedup
      r hmem (List.mem_dedup.mpr hq) (fun hm => hp (List.mem_dedup.mp hm))
    unfold RecoverWorkerTransactionsPQ
    by_cases hf : (RecordScanPhase env G qList.dedup records pList.dedup).failed
    · rw [if_pos hf]
      exact hkept
    · rw [if_neg hf]
      exact hkept

theorem q_only_record_left_for_next_pass_witness :
    (∀ b, (("citus_0_123_55_3" : String), b) ∉
      (RecoverWorkerTransactionsPQ envLive 0 [⟨0, "citus_0_123_55_3", none⟩]
        [] ["citus_0_123_55_3"]).commands) ∧
    (⟨0, "citus_0_123_55_3", none⟩ : RecoveryRecord) ∈
      (RecoverWorkerTransactionsPQ envLive 0 [⟨0, "citus_0_123_55_3", none⟩]
        [] ["citus_0_123_55_3"]).keptRecords :=
  q_only_record_left_for_next_pass envLive 0 [⟨0, "citus_0_123_55_3", none⟩]
    [] ["citus_0_123_55_3"] ⟨0, "citus_0_123_55_3", none⟩ _ rfl
    (by decide) (by decide) (by decide)

end Citus

namespace Citus

/-- Example environment: every command succeeds and no distributed
transaction is live. -/
def envAllOK : Env :=
  { coordinatorId := 0, activeXactNumbers := [],
    outerInProgress := fun _ => false, outerDidCommit := fun _ => true,
    sendOK := fun _ _ => true, respOK := fun _ _ => true }

lemma scan_not_failed (env : Env) (G : Int) (q : List String)
    (hsucc : ∀ g b, RecoverPreparedTransactionOnWorker env g b = true) :
    ∀ records p, (RecordScanPhase env G q records p).failed = false := by
  refine scan_cases env G q (fun _ _ res => res.failed = false) ?_ ?_ ?_ ?_ ?_ ?_
  · intro p
    rfl
  · intro r rest p _ ih
    exact ih
  · intro r rest p _ _ _ ih
    exact ih
  · intro r rest p _ _ _ _ _ _ _ ih
    exact ih
  · intro r rest p _ _ _ _ _ _ hrec
    rw [hsucc r.gid true] at hrec
    exact absurd hrec (by simp)
  · intro r rest p _ _ _ _ _ ih
    exact ih

lemma scan_pending_keeps_unclaimed (env : Env) (G : Int) (q : List String)
    (g : String) :
    ∀ records p,
      (∀ x ∈ records, x.groupId = G → x.gid ≠ g) → g ∈ p →
      g ∈ (RecordScanPhase env G q records p).pending := by
  refine scan_cases env G q
    (fun records p res =>
      (∀ x ∈ records, x.groupId = G → x.gid ≠ g) → g ∈ p → g ∈ res.pending)
    ?_ ?_ ?_ ?_ ?_ ?_
  · intro p _ hg
    exact hg
  · intro r rest p _ ih hnc hg
    exact ih (fun x hx => hnc x (List.mem_cons_of_mem r hx)) hg
  · intro r rest p hgrp _ _ ih hnc hg
    refine ih (fun x hx => hnc x (List.mem_cons_of_mem r hx)) ?_
    exact (mem_removeGid p r.gid g).mpr
      ⟨hg, fun e => (hnc r (List.mem_cons_self r rest) hgrp) e.symm⟩
  · intro r rest p hgrp _ _ _ _ _ _ ih hnc hg
    refine ih (fun x hx => hnc x (List.mem_cons_of_mem r hx)) ?_
    exact (mem_removeGid p r.gid g).mpr
      ⟨hg, fun e => (hnc r (List.mem_cons_self r rest) hgrp) e.symm⟩
  · intro r rest p hgrp _ _ _ _ _ _ hnc hg
    exact (mem_removeGid p r.gid g).mpr
      ⟨hg, fun e => (hnc r (List.mem_cons_self r rest) hgrp) e.symm⟩
  · intro r rest p hgrp _ _ _ _ ih hnc hg
    refine ih (fun x hx => hnc x (List.mem_cons_of_mem r hx)) ?_
    exact (mem_removeGid p r.gid g).mpr
      ⟨hg, fun e => (hnc r (List.mem_cons_self r rest) hgrp) e.symm⟩

lemma abort_emits_rollback (env : Env)
    (hsucc : ∀ g b, RecoverPreparedTransactionOnWorker env g b = true) :
    ∀ pending g, g ∈ pending →
      IsTransactionInProgress env.activeXactNumbers g = false →
      (g, false) ∈ (AbortRemainingPhase env pending).2.1 := by
  intro pending
  induction pending with
  | nil => intro g hg; simp at hg
  | cons h rest ih =>
    intro g hg hip
    unfold AbortRemainingPhase
    rcases List.mem_cons.mp hg with rfl | hg'
    · rw [if_neg (by rw [hip]; simp), hsucc g false]
      simp only [if_true]
      exact List.mem_cons_self _ _
    · by_cases hih : IsTransactionInProgress env.activeXactNumbers h = true
      · rw [if_pos hih]
        exact ih g hg' hip
      · rw [if_neg hih, hsucc h false]
        simp only [if_true]
        exact List.mem_cons_of_mem _ (ih g hg' hip)

/-- C2: a gid in the node's prepared-transaction snapshot that matches
this coordinator's naming pattern, is claimed by no recovery record of
the node's group, and whose transaction number is not live, gets
ROLLBACK PREPARED issued for it. -/
theorem unclaimed_prepared_transaction_aborted (env : Env) (node : NodeInfo)
    (records : List RecoveryRecord) (g : String) (gn pn tn cn : Nat)
    (res : NodeOutcome)
    (hres : res = RecoverWorkerTransactions env node records)
    (hconn : node.connectionOK = true)
    (hprep : g ∈ node.prepared)
    (hpat : matchesCoordinatorPattern env.coordinatorId g = true)
    (hnoclaim : ∀ r ∈ records, r.groupId = node.groupId → r.gid ≠ g)
    (hparse : ParsePreparedTransactionName g = some (gn, pn, tn, cn))
    (hnotlive : tn ∉ env.activeXactNumbers)
    (hsucc : ∀ g' b, RecoverPreparedTransactionOnWorker env g' b = true) :
    (g, false) ∈ res.commands := by
  subst hres
  have hip : IsTransactionInProgress env.activeXactNumbers g = false := by
    unfold IsTransactionInProgress
    rw [hparse]
    simpa using hnotlive
  have hpl : g ∈ PendingWorkerTransactionList env.coordinatorId node.prepared :=
    List.mem_filter.mpr ⟨hprep, hpat⟩
  unfold RecoverWorkerTransactions
  rw [hconn]
  simp only [Bool.not_true, Bool.false_eq_true, if_false]
  unfold RecoverWorkerTransactionsPQ
  simp only [scan_not_failed env node.groupId _ hsucc, Bool.false_eq_true,
    if_false]
  refine List.mem_append.mpr (Or.inr ?_)
  refine abort_emits_rollback env hsucc _ g ?_ hip
  exact scan_pending_keeps_unclaimed env node.groupId _ g records _
    hnoclaim (List.mem_dedup.mpr hpl)

theorem unclaimed_prepared_transaction_aborted_witness :
    (("citus_0_123_55_3" : String), false) ∈
      (RecoverWorkerTransactions envAllOK ⟨0, true, ["citus_0_123_55_3"]⟩
        []).commands :=
  unclaimed_prepared_transaction_aborted envAllOK ⟨0, true, ["citus_0_123_55_3"]⟩
    [] "citus_0_123_55_3" 0 123 55 3 _ rfl rfl (by decide) (by decide)
    (by intro r hr; simp at hr) (by decide) (by decide) (fun _ _ => rfl)

end Citus

namespace Citus

lemma nodup_gid_tail (G : Int) (a : RecoveryRecord) (rest : List RecoveryRecord)
    (hn : (((a :: rest).filter (fun x => decide (x.groupId = G))).map
      RecoveryRecord.gid).Nodup) :
    ((rest.filter (fun x => decide (x.groupId = G))).map
      RecoveryRecord.gid).Nodup := by
  by_cases h : a.groupId = G
  · simp only [List.filter_cons] at hn
    rw [if_pos (by simp [h])] at hn
    simp only [List.map_cons, List.nodup_cons] at hn
    exact hn.2
  · simp only [List.filter_cons] at hn
    rw [if_neg (by simp [h])] at hn
    exact hn

lemma gid_ne_of_nodup (G : Int) (a r : RecoveryRecord)
    (rest : List RecoveryRecord)
    (hn : (((a :: rest).filter (fun x => decide (x.groupId = G))).map
      RecoveryRecord.gid).Nodup)
    (ha : a.groupId = G) (hr : r ∈ rest) (hg : r.groupId = G) :
    r.gid ≠ a.gid := by
  intro e
  simp only [List.filter_cons] at hn
  rw [if_pos (by simp [ha])] at hn
  simp only [List.map_cons, List.nodup_cons] at hn
  exact hn.1 (e ▸ List.mem_map.mpr
    ⟨r, List.mem_filter.mpr ⟨hr, by simp [hg]⟩, rfl⟩)

lemma head_not_in_rest (G : Int) (r : RecoveryRecord)
    (rest : List RecoveryRecord)
    (hn : (((r :: rest).filter (fun x => decide (x.groupId = G))).map
      RecoveryRecord.gid).Nodup)
    (hg : r.groupId = G) : r ∉ rest :=
  fun hr => gid_ne_of_nodup G r r rest hn hg hr hg rfl

lemma outer_ok_flags (env : Env) (r : RecoveryRecord)
    (houter : recordOuterXid r = 0 ∨
      env.outerDidCommit (recordOuterXid r) = true) :
    outerHeldOpen env r = false ∧ outerAbandoned env r = false := by
  rcases houter with h | h
  · constructor <;> simp [outerHeldOpen, outerAbandoned, h]
  · constructor <;> simp [outerHeldOpen, outerAbandoned, h]

lemma record_commit_core (env : Env) (G : Int) (q : List String)
    (r : RecoveryRecord)
    (hsucc : ∀ g b, RecoverPreparedTransactionOnWorker env g b = true)
    (hgrp : r.groupId = G)
    (hipr : IsTransactionInProgress env.activeXactNumbers r.gid = false)
    (hhr : outerHeldOpen env r = false)
    (har : outerAbandoned env r = false)
    (hqr : r.gid ∈ q) :
    ∀ records p,
      (((records.filter (fun x => decide (x.groupId = G))).map
        RecoveryRecord.gid).Nodup) →
      r ∈ records → r.gid ∈ p →
      (r.gid, true) ∈ (RecordScanPhase env G q records p).commands ∧
        r ∉ (RecordScanPhase env G q records p).keptRecords := by
  refine scan_cases env G q
    (fun records p res =>
      (((records.filter (fun x => decide (x.groupId = G))).map
        RecoveryRecord.gid).Nodup) →
      r ∈ records → r.gid ∈ p →
      (r.gid, true) ∈ res.commands ∧ r ∉ res.keptRecords) ?_ ?_ ?_ ?_ ?_ ?_
  · intro p _ hmem _
    simp at hmem
  · intro a rest p hcond ih hn hmem hpend
    have hra : r = a → False := by
      intro heq
      rcases hcond with hga | hia | haa
      · exact hga (heq ▸ hgrp)
      · rw [← heq, hipr] at hia
        exact Bool.false_ne_true hia
      · rw [← heq, har] at haa
        exact Bool.false_ne_true haa
    rcases List.mem_cons.mp hmem with heq | hr'
    · exact (hra heq).elim
    · obtain ⟨hc, hk⟩ := ih (nodup_gid_tail G a rest hn) hr' hpend
      refine ⟨hc, fun hm => ?_⟩
      rcases List.mem_cons.mp hm with heq2 | hk2
      · exact hra heq2
      · exact hk hk2
  · intro a rest p hga hia hdisj ih hn hmem hpend
    have hra : r = a → False := by
      intro heq
      rcases hdisj with hh | ⟨_, _, hpa, _⟩
      · rw [← heq, hhr] at hh
        exact Bool.false_ne_true hh
      · exact hpa (heq ▸ hpend)
    rcases List.mem_cons.mp hmem with heq | hr'
    · exact (hra heq).elim
    · have hne : r.gid ≠ a.gid := gid_ne_of_nodup G a r rest hn hga hr' hgrp
      obtain ⟨hc, hk⟩ := ih (nodup_gid_tail G a rest hn) hr'
        ((mem_removeGid p a.gid r.gid).mpr ⟨hpend, hne⟩)
      refine ⟨hc, fun hm => ?_⟩
      rcases List.mem_cons.mp hm with heq2 | hk2
      · exact hra heq2
      · exact hk hk2
  · intro a rest p hga hia hha haa hpa hqa hrec ih hn hmem hpend
    rcases List.mem_cons.mp hmem with heq | hr'
    · subst heq
      refine ⟨List.mem_cons_self _ _, fun hm => ?_⟩
      have hsub := scan_kept_sublist env G q rest (removeGid p r.gid)
      exact head_not_in_rest G r rest hn hgrp (hsub.subset hm)
    · have hne : r.gid ≠ a.gid := gid_ne_of_nodup G a r rest hn hga hr' hgrp
      obtain ⟨hc, hk⟩ := ih (nodup_gid_tail G a rest hn) hr'
        ((mem_removeGid p a.gid r.gid).mpr ⟨hpend, hne⟩)
      exact ⟨List.mem_cons_of_mem _ hc, hk⟩
  · intro a rest p _ _ _ _ _ _ hrec _ _ _
    rw [hsucc a.gid true] at hrec
    exact (Bool.true_eq_false.mp hrec).elim
  · intro a rest p hga hia hha haa hqa ih hn hmem hpend
    rcases List.mem_cons.mp hmem with heq | hr'
    · exact absurd (heq ▸ hqr) hqa
    · have hne : r.gid ≠ a.gid := gid_ne_of_nodup G a r rest hn hga hr' hgrp
      exact ih (nodup_gid_tail G a rest hn) hr'
        ((mem_removeGid p a.gid r.gid).mpr ⟨hpend, hne⟩)

/-- C1: a recovery record whose transaction is not live, whose outer
transaction (if any) committed, and whose gid is present in both
prepared-transaction snapshots, gets COMMIT PREPARED issued for its gid
and its record deleted. Stated under the happy-path conditions of this
property: record gids for the group are unique (the gid is globally
unique by construction) and the issued commands succeed. -/
theorem record_in_both_snapshots_committed (env : Env) (G : Int)
    (records : List RecoveryRecord) (pList qList : List String)
    (r : RecoveryRecord) (res : PassResult)
    (hres : res = RecoverWorkerTransactionsPQ env G records pList qList)
    (hmem : r ∈ records) (hgrp : r.groupId = G)
    (hnodup : ((records.filter (fun x => decide (x.groupId = G))).map
      RecoveryRecord.gid).Nodup)
    (hnotlive : IsTransactionInProgress env.activeXactNumbers r.gid = false)
    (houter : recordOuterXid r = 0 ∨
      env.outerDidCommit (recordOuterXid r) = true)
    (hP : r.gid ∈ pList) (hQ : r.gid ∈ qList)
    (hsucc : ∀ g b, RecoverPreparedTransactionOnWorker env g b = true) :
    (r.gid, true) ∈ res.commands ∧ r ∉ res.keptRecords := by
  subst hres
  obtain ⟨hh, ha⟩ := outer_ok_flags env r houter
  have core := record_commit_core env G qList.dedup r hsucc hgrp hnotlive hh ha
    (List.mem_dedup.mpr hQ) records pList.dedup hnodup hmem
    (List.mem_dedup.mpr hP)
  unfold RecoverWorkerTransactionsPQ
  simp only [scan_not_failed env G _ hsucc, Bool.false_eq_true, if_false]
  exact ⟨List.mem_append.mpr (Or.inl core.1), core.2⟩

theorem record_in_both_snapshots_committed_witness :
    (("citus_0_123_55_3" : String), true) ∈
      (RecoverWorkerTransactionsPQ envAllOK 0 [⟨0, "citus_0_123_55_3", none⟩]
        ["citus_0_123_55_3"] ["citus_0_123_55_3"]).commands ∧
    (⟨0, "citus_0_123_55_3", none⟩ : RecoveryRecord) ∉
      (RecoverWorkerTransactionsPQ envAllOK 0 [⟨0, "citus_0_123_55_3", none⟩]
        ["citus_0_123_55_3"] ["citus_0_123_55_3"]).keptRecords :=
  record_in_both_snapshots_committed envAllOK 0
    [⟨0, "citus_0_123_55_3", none⟩] ["citus_0_123_55_3"] ["citus_0_123_55_3"]
    ⟨0, "citus_0_123_55_3", none⟩ _ rfl (by decide) rfl (by decide)
    (by decide) (Or.inl rfl) (by decide) (by decide) (fun _ _ => rfl)

end Citus

namespace Citus

lemma scan_commands_spec (env : Env) (G : Int) (q : List String) :
    ∀ records p,
      ((RecordScanPhase env G q records p).failed = false →
        ∀ c ∈ (RecordScanPhase env G q records p).commands,
          CommandSucceeded env c = true) ∧
      ((RecordScanPhase env G q records p).failed = true →
        ∃ pre lastc,
          (RecordScanPhase env G q records p).commands = pre ++ [lastc] ∧
          (∀ c ∈ pre, CommandSucceeded env c = true) ∧
          CommandSucceeded env lastc = false) ∧
      (RecordScanPhase env G q records p).count =
        ((RecordScanPhase env G q records p).commands.filter
          (fun c => CommandSucceeded env c)).length := by
  refine scan_cases env G q
    (fun _ _ res =>
      (res.failed = false → ∀ c ∈ res.commands, CommandSucceeded env c = true) ∧
      (res.failed = true →
        ∃ pre lastc, res.commands = pre ++ [lastc] ∧
          (∀ c ∈ pre, CommandSucceeded env c = true) ∧
          CommandSucceeded env lastc = false) ∧
      res.count =
        (res.commands.filter (fun c => CommandSucceeded env c)).length)
    ?_ ?_ ?_ ?_ ?_ ?_
  · intro p
    refine ⟨fun _ c hc => absurd hc (by simp), fun h => by simp at h, by simp⟩
  · intro r rest p _ ih
    exact ih
  · intro r rest p _ _ _ ih
    exact ih
  · intro r rest p _ _ _ _ _ _ hrec ih
    have hcs : CommandSucceeded env (r.gid, true) = true := hrec
    obtain ⟨ih1, ih2, ih3⟩ := ih
    refine ⟨?_, ?_, ?_⟩
    · intro hf c hc
      rcases List.mem_cons.mp hc with rfl | hc'
      · exact hcs
      · exact ih1 hf c hc'
    · intro hf
      obtain ⟨pre, lastc, heq, hpre, hlast⟩ := ih2 hf
      refine ⟨(r.gid, true) :: pre, lastc, ?_, ?_, hlast⟩
      · simp [heq]
      · intro c hc
        rcases List.mem_cons.mp hc with rfl | hc'
        · exact hcs
        · exact hpre c hc'
    · simp only [List.filter_cons, hcs, if_true, List.length_cons, ih3]
  · intro r rest p _ _ _ _ _ _ hrec
    have hcs : CommandSucceeded env (r.gid, true) = false := hrec
    refine ⟨fun hf => by simp at hf, ?_, ?_⟩
    · intro _
      exact ⟨[], (r.gid, true), by simp, by simp, hcs⟩
    · simp [List.filter_cons, hcs]
  · intro r rest p _ _ _ _ _ ih
    exact ih

lemma abort_commands_spec (env : Env) :
    ∀ pending,
      ((AbortRemainingPhase env pending).2.2 = false →
        ∀ c ∈ (AbortRemainingPhase env pending).2.1,
          CommandSucceeded env c = true) ∧
      ((AbortRemainingPhase env pending).2.2 = true →
        ∃ pre lastc,
          (AbortRemainingPhase env pending).2.1 = pre ++ [lastc] ∧
          (∀ c ∈ pre, CommandSucceeded env c = true) ∧
          CommandSucceeded env lastc = false) ∧
      (AbortRemainingPhase env pending).1 =
        ((AbortRemainingPhase env pending).2.1.filter
          (fun c => CommandSucceeded env c)).length := by
  intro pending
  induction pending with
  | nil =>
    refine ⟨fun _ c hc => absurd hc (by simp [AbortRemainingPhase]),
      fun h => by simp [AbortRemainingPhase] at h, by simp [AbortRemainingPhase]⟩
  | cons g rest ih =>
    obtain ⟨ih1, ih2, ih3⟩ := ih
    unfold AbortRemainingPhase
    by_cases hip : IsTransactionInProgress env.activeXactNumbers g = true
    · rw [if_pos hip]
      exact ⟨ih1, ih2, ih3⟩
    · rw [if_neg hip]
      cases hrec : RecoverPreparedTransactionOnWorker env g false
      · have hcs : CommandSucceeded env (g, false) = false := hrec
        simp only [Bool.false_eq_true, if_false]
        refine ⟨fun hf => by simp at hf, ?_, ?_⟩
        · intro _
          exact ⟨[], (g, false), by simp, by simp, hcs⟩
        · simp [List.filter_cons, hcs]
      · have hcs : CommandSucceeded env (g, false) = true := hrec
        simp only [if_true]
        refine ⟨?_, ?_, ?_⟩
        · intro hf c hc
          rcases List.mem_cons.mp hc with rfl | hc'
          · exact hcs
          · exact ih1 hf c hc'
        · intro hf
          obtain ⟨pre, lastc, heq, hpre, hlast⟩ := ih2 hf
          refine ⟨(g, false) :: pre, lastc, by simp [heq], ?_, hlast⟩
          intro c hc
          rcases List.mem_cons.mp hc with rfl | hc'
          · exact hcs
          · exact hpre c hc'
        · simp only [List.filter_cons, hcs, if_true, List.length_cons, ih3]

/-- C6: when a COMMIT PREPARED or ROLLBACK PREPARED command fails on a
node, it is the last command issued to that node (processing of the
node stops), the node's recovered count consists of exactly the
commands that succeeded before the failure, and the pass goes on to
process the remaining nodes regardless. -/
theorem command_failure_stops_node (env : Env) (G : Int)
    (records : List RecoveryRecord) (pList qList : List String)
    (c : String × Bool) (res : PassResult)
    (hres : res = RecoverWorkerTransactionsPQ env G records pList qList)
    (hc : c ∈ res.commands) (hfail : CommandSucceeded env c = false) :
    res.commands.getLast? = some c ∧
    res.count =
      (res.commands.filter (fun d => CommandSucceeded env d)).length ∧
    (∀ (records2 : List RecoveryRecord) (node : NodeInfo)
      (rest : List NodeInfo),
      (RecoverTwoPhaseCommits env records2 (node :: rest)).count =
        (RecoverWorkerTransactions env node records2).count +
          (RecoverTwoPhaseCommits env
            (RecoverWorkerTransactions env node records2).records rest).count) := by
  have hthird : ∀ (records2 : List RecoveryRecord) (node : NodeInfo)
      (rest : List NodeInfo),
      (RecoverTwoPhaseCommits env records2 (node :: rest)).count =
        (RecoverWorkerTransactions env node records2).count +
          (RecoverTwoPhaseCommits env
            (RecoverWorkerTransactions env node records2).records rest).count :=
    fun _ _ _ => rfl
  subst hres
  obtain ⟨hs1, hs2, hs3⟩ := scan_commands_spec env G qList.dedup records
    pList.dedup
  unfold RecoverWorkerTransactionsPQ at hc ⊢
  cases hf : (RecordScanPhase env G qList.dedup records pList.dedup).failed
  · obtain ⟨ha1, ha2, ha3⟩ := abort_commands_spec env
      (RecordScanPhase env G qList.dedup records pList.dedup).pending
    simp only [hf, Bool.false_eq_true, if_false] at hc ⊢
    cases haf : (AbortRemainingPhase env
        (RecordScanPhase env G qList.dedup records pList.dedup).pending).2.2
    · exfalso
      rcases List.mem_append.mp hc with hc' | hc'
      · rw [hs1 hf c hc'] at hfail
        exact Bool.true_eq_false.mp hfail
      · rw [ha1 haf c hc'] at hfail
        exact Bool.true_eq_false.mp hfail
    · obtain ⟨pre, lastc, heq, hpre, hlast⟩ := ha2 haf
      have hceq : c = lastc := by
        rcases List.mem_append.mp hc with hc' | hc'
        · rw [hs1 hf c hc'] at hfail
          exact (Bool.true_eq_false.mp hfail).elim
        · rw [heq] at hc'
          rcases List.mem_append.mp hc' with hc'' | hc''
          · rw [hpre c hc''] at hfail
            exact (Bool.true_eq_false.mp hfail).elim
          · simpa using hc''
      subst hceq
      refine ⟨?_, ?_, hthird⟩
      · rw [heq, ← List.append_assoc, List.getLast?_concat]
      · rw [List.filter_append, List.length_append, hs3, ha3]
  · simp only [hf, if_true] at hc ⊢
    obtain ⟨pre, lastc, heq, hpre, hlast⟩ := hs2 hf
    have hceq : c = lastc := by
      rw [heq] at hc
      rcases List.mem_append.mp hc with hc'' | hc''
      · rw [hpre c hc''] at hfail
        exact (Bool.true_eq_false.mp hfail).elim
      · simpa using hc''
    subst hceq
    refine ⟨?_, hs3, hthird⟩
    rw [heq, List.getLast?_concat]

end Citus

namespace Citus

/-- Environment in which every command's response reports failure. -/
def envRespFail : Env :=
  { coordinatorId := 0, activeXactNumbers := [],
    outerInProgress := fun _ => false, outerDidCommit := fun _ => true,
    sendOK := fun _ _ => true, respOK := fun _ _ => false }

theorem command_failure_stops_node_witness :
    (RecoverWorkerTransactionsPQ envRespFail 0 [] ["citus_0_123_55_3"]
      ["citus_0_123_55_3"]).commands.getLast? =
        some ("citus_0_123_55_3", false) ∧
    (RecoverWorkerTransactionsPQ envRespFail 0 [] ["citus_0_123_55_3"]
      ["citus_0_123_55_3"]).count =
      ((RecoverWorkerTransactionsPQ envRespFail 0 [] ["citus_0_123_55_3"]
        ["citus_0_123_55_3"]).commands.filter
          (fun d => CommandSucceeded envRespFail d)).length ∧
    (∀ (records2 : List RecoveryRecord) (node : NodeInfo)
      (rest : List NodeInfo),
      (RecoverTwoPhaseCommits envRespFail records2 (node :: rest)).count =
        (RecoverWorkerTransactions envRespFail node records2).count +
          (RecoverTwoPhaseCommits envRespFail
            (RecoverWorkerTransactions envRespFail node
              records2).records rest).count) :=
  command_failure_stops_node envRespFail 0 [] ["citus_0_123_55_3"]
    ["citus_0_123_55_3"] ("citus_0_123_55_3", false) _ rfl (by decide)
    (by decide)

lemma workerE_eq_ok (env : Env) (node : NodeInfo)
    (records : List RecoveryRecord) :
    RecoverWorkerTransactionsE env node records =
      Except.ok (RecoverWorkerTransactions env node records) := by
  cases hconn : node.connectionOK <;>
    simp [RecoverWorkerTransactionsE, RecoverWorkerTransactions,
      PendingWorkerTransactionListE, hconn]

lemma passE_eq_ok (env : Env) :
    ∀ (nodes : List NodeInfo) (records : List RecoveryRecord),
      RecoverTwoPhaseCommitsE env records nodes =
        Except.ok (RecoverTwoPhaseCommits env records nodes) := by
  intro nodes
  induction nodes with
  | nil => intro records; rfl
  | cons node rest ih =>
    intro records
    simp only [RecoverTwoPhaseCommitsE, workerE_eq_ok, ih]
    rfl

lemma perNode_length (env : Env) :
    ∀ (nodes : List NodeInfo) (records : List RecoveryRecord),
      (RecoverTwoPhaseCommits env records nodes).perNode.length =
        nodes.length := by
  intro nodes
  induction nodes with
  | nil => intro records; rfl
  | cons node rest ih =>
    intro records
    unfold RecoverTwoPhaseCommits
    simp only [List.length_cons]
    rw [ih]

lemma perNode_unreachable (env : Env) :
    ∀ (nodes : List NodeInfo) (records : List RecoveryRecord) (i : Nat)
      (hi : i < nodes.length),
      (nodes.get ⟨i, hi⟩).connectionOK = false →
      (RecoverTwoPhaseCommits env records nodes).perNode.get? i =
        some (0, true) := by
  intro nodes
  induction nodes with
  | nil => intro records i hi; simp at hi
  | cons node rest ih =>
    intro records i hi hbad
    cases i with
    | zero =>
      simp only [List.get] at hbad
      unfold RecoverTwoPhaseCommits
      simp only []
      unfold RecoverWorkerTransactions
      rw [hbad]
      rfl
    | succ j =>
      simp only [List.get] at hbad
      unfold RecoverTwoPhaseCommits
      exact ih _ j (Nat.lt_of_succ_lt_succ hi) hbad

/-- C7: an unreachable node does not make the recovery entry point
raise: the pass always returns an outcome (the error-explicit variant
returns `ok`), the unreachable node contributes a zero count together
with a warning, and every node of the list still gets its own per-node
entry. -/
theorem unreachable_node_warns_and_continues (env : Env)
    (records : List RecoveryRecord) (nodes : List NodeInfo) (i : Nat)
    (hi : i < nodes.length)
    (hbad : (nodes.get ⟨i, hi⟩).connectionOK = false) :
    RecoverTwoPhaseCommitsE env records nodes =
      Except.ok (RecoverTwoPhaseCommits env records nodes) ∧
    (RecoverTwoPhaseCommits env records nodes).perNode.get? i =
      some (0, true) ∧
    (RecoverTwoPhaseCommits env records nodes).perNode.length =
      nodes.length :=
  ⟨passE_eq_ok env nodes records,
    perNode_unreachable env nodes records i hi hbad,
    perNode_length env nodes records⟩

theorem unreachable_node_warns_and_continues_witness :
    RecoverTwoPhaseCommitsE envAllOK [] [⟨0, false, []⟩, ⟨1, true, []⟩] =
      Except.ok (RecoverTwoPhaseCommits envAllOK [] [⟨0, false, []⟩,
        ⟨1, true, []⟩]) ∧
    (RecoverTwoPhaseCommits envAllOK [] [⟨0, false, []⟩,
      ⟨1, true, []⟩]).perNode.get? 0 = some (0, true) ∧
    (RecoverTwoPhaseCommits envAllOK [] [⟨0, false, []⟩,
      ⟨1, true, []⟩]).perNode.length = 2 :=
  unreachable_node_warns_and_continues envAllOK [] [⟨0, false, []⟩,
    ⟨1, true, []⟩] 0 (by decide) (by decide)

end Citus

namespace Citus

/-! ## Classification of records, for the idempotence proof

Which way a record goes in the scan loop depends only on the
environment and the record itself (plus snapshot membership of its
gid), not on the evolving pending set — provided record gids are unique
within the group and the two snapshots agree. The following predicates
name the possible outcomes. -/

/-- The record reaches the commit/delete decision: its transaction is
not live, and its outer transaction neither holds it open nor abandons
it. -/
def fallsThrough (env : Env) (r : RecoveryRecord) : Bool :=
  !IsTransactionInProgress env.activeXactNumbers r.gid &&
    !outerHeldOpen env r && !outerAbandoned env r

/-- The record survives the scan (is not deleted). -/
def keepsRecord (env : Env) (G : Int) (r : RecoveryRecord) : Bool :=
  decide (r.groupId ≠ G) || !fallsThrough env r

/-- The scan removes the record's gid from the pending set. -/
def removesFromPending (env : Env) (G : Int) (r : RecoveryRecord) : Bool :=
  decide (r.groupId = G) &&
    !IsTransactionInProgress env.activeXactNumbers r.gid &&
    !outerAbandoned env r

/-- The scan issues COMMIT PREPARED for the record's gid. -/
def commitsRecord (env : Env) (G : Int) (q : List String)
    (r : RecoveryRecord) : Bool :=
  decide (r.groupId = G) && fallsThrough env r && decide (r.gid ∈ q)

lemma held_not_abandoned (env : Env) (x : RecoveryRecord)
    (hh : outerHeldOpen env x = true) : outerAbandoned env x = false := by
  unfold outerHeldOpen at hh
  simp only [Bool.and_eq_true] at hh
  simp [outerAbandoned, hh.1.2]

lemma keep_case_flags (env : Env) (G : Int) (q : List String)
    (x : RecoveryRecord)
    (hcond : x.groupId ≠ G ∨
      IsTransactionInProgress env.activeXactNumbers x.gid = true ∨
      outerAbandoned env x = true) :
    commitsRecord env G q x = false ∧ keepsRecord env G x = true ∧
      removesFromPending env G x = false := by
  rcases hcond with h | h | h <;>
    simp [commitsRecord, keepsRecord, removesFromPending, fallsThrough, h]

lemma held_case_flags (env : Env) (G : Int) (q : List String)
    (x : RecoveryRecord) (hg : x.groupId = G)
    (hip : IsTransactionInProgress env.activeXactNumbers x.gid = false)
    (hh : outerHeldOpen env x = true) :
    commitsRecord env G q x = false ∧ keepsRecord env G x = true ∧
      removesFromPending env G x = true := by
  have ha := held_not_abandoned env x hh
  simp [commitsRecord, keepsRecord, removesFromPending, fallsThrough, hg, hip,
    hh, ha]

lemma fallthrough_flags (env : Env) (G : Int) (x : RecoveryRecord)
    (hg : x.groupId = G)
    (hip : IsTransactionInProgress env.activeXactNumbers x.gid = false)
    (hh : outerHeldOpen env x = false)
    (ha : outerAbandoned env x = false) :
    fallsThrough env x = true ∧ keepsRecord env G x = false ∧
      removesFromPending env G x = true := by
  simp [fallsThrough, keepsRecord, removesFromPending, hg, hip, hh, ha]

lemma pending_filter_cons_skip (env : Env) (G : Int) (a : RecoveryRecord)
    (rest : List RecoveryRecord) (p : List String)
    (hrem : removesFromPending env G a = false) :
    p.filter (fun g => !((a :: rest).any
      (fun x => removesFromPending env G x && decide (x.gid = g)))) =
    p.filter (fun g => !(rest.any
      (fun x => removesFromPending env G x && decide (x.gid = g)))) := by
  apply List.filter_congr
  intro g _
  simp [List.any_cons, hrem]

lemma pending_filter_cons_remove (env : Env) (G : Int) (a : RecoveryRecord)
    (rest : List RecoveryRecord) (p : List String)
    (hrem : removesFromPending env G a = true) :
    p.filter (fun g => !((a :: rest).any
      (fun x => removesFromPending env G x && decide (x.gid = g)))) =
    (removeGid p a.gid).filter (fun g => !(rest.any
      (fun x => removesFromPending env G x && decide (x.gid = g)))) := by
  rw [removeGid, List.filter_filter]
  apply List.filter_congr
  intro g _
  by_cases hg : a.gid = g
  · subst hg
    simp [List.any_cons, hrem]
  · have hg2 : ¬g = a.gid := fun h => hg h.symm
    simp [List.any_cons, hrem, hg, hg2]

lemma abort_characterisation (env : Env)
    (hsucc : ∀ g b, RecoverPreparedTransactionOnWorker env g b = true) :
    ∀ pending,
      AbortRemainingPhase env pending =
        ((pending.filter
            (fun g => !IsTransactionInProgress env.activeXactNumbers g)).length,
         (pending.filter
            (fun g => !IsTransactionInProgress env.activeXactNumbers g)).map
          (fun g => (g, false)),
         false) := by
  intro pending
  induction pending with
  | nil => rfl
  | cons g rest ih =>
    unfold AbortRemainingPhase
    cases hip : IsTransactionInProgress env.activeXactNumbers g
    · rw [if_neg (by simp), hsucc g false, if_pos rfl, ih]
      simp [List.filter_cons, hip]
    · rw [if_pos rfl, ih]
      simp [List.filter_cons, hip]

end Citus

namespace Citus

/-- Closed form of the record-scan loop when every issued command
succeeds, record gids are unique within the group, and the two
snapshots agree on every record gid of the group (as they do when the
worker is quiescent): the records kept, the commits issued and the
pending set that remains are each given by a filter over the inputs. -/
lemma scan_characterisation (env : Env) (G : Int) (q : List String)
    (hsucc : ∀ g b, RecoverPreparedTransactionOnWorker env g b = true) :
    ∀ records p,
      ((records.filter (fun x => decide (x.groupId = G))).map
        RecoveryRecord.gid).Nodup →
      (∀ x ∈ records, x.groupId = G → ((x.gid ∈ p) ↔ (x.gid ∈ q))) →
      RecordScanPhase env G q records p =
        { count := (records.filter (fun x => commitsRecord env G q x)).length,
          commands := (records.filter (fun x => commitsRecord env G q x)).map
            (fun x => (x.gid, true)),
          keptRecords := records.filter (fun x => keepsRecord env G x),
          pending := p.filter (fun g => !(records.any
            (fun x => removesFromPending env G x && decide (x.gid = g)))),
          failed := false } := by
  refine scan_cases env G q
    (fun records p res =>
      ((records.filter (fun x => decide (x.groupId = G))).map
        RecoveryRecord.gid).Nodup →
      (∀ x ∈ records, x.groupId = G → ((x.gid ∈ p) ↔ (x.gid ∈ q))) →
      res =
        { count := (records.filter (fun x => commitsRecord env G q x)).length,
          commands := (records.filter (fun x => commitsRecord env G q x)).map
            (fun x => (x.gid, true)),
          keptRecords := records.filter (fun x => keepsRecord env G x),
          pending := p.filter (fun g => !(records.any
            (fun x => removesFromPending env G x && decide (x.gid = g)))),
          failed := false }) ?_ ?_ ?_ ?_ ?_ ?_
  · intro p _ _
    simp
  · intro a rest p hcond ih hn hpq
    obtain ⟨hcom, hkeepa, hrem⟩ := keep_case_flags env G q a hcond
    have hn' := nodup_gid_tail G a rest hn
    have hpq' : ∀ x ∈ rest, x.groupId = G → ((x.gid ∈ p) ↔ (x.gid ∈ q)) :=
      fun x hx => hpq x (List.mem_cons_of_mem a hx)
    rw [ih hn' hpq', pending_filter_cons_skip env G a rest p hrem]
    simp [List.filter_cons, hcom, hkeepa]
  · intro a rest p hga hia hdisj ih hn hpq
    rcases hdisj with hh | ⟨hh, ha, hpa, hqa⟩
    · obtain ⟨hcom, hkeepa, hrem⟩ := held_case_flags env G q a hga hia hh
      have hn' := nodup_gid_tail G a rest hn
      have hpq' : ∀ x ∈ rest, x.groupId = G →
          ((x.gid ∈ removeGid p a.gid) ↔ (x.gid ∈ q)) := by
        intro x hx hxg
        have hne : x.gid ≠ a.gid := gid_ne_of_nodup G a x rest hn hga hx hxg
        rw [mem_removeGid]
        constructor
        · rintro ⟨hxp, _⟩
          exact (hpq x (List.mem_cons_of_mem a hx) hxg).mp hxp
        · intro hxq
          exact ⟨(hpq x (List.mem_cons_of_mem a hx) hxg).mpr hxq, hne⟩
      rw [ih hn' hpq', pending_filter_cons_remove env G a rest p hrem]
      simp [List.filter_cons, hcom, hkeepa]
    · exact absurd ((hpq a (List.mem_cons_self a rest) hga).mpr hqa) hpa
  · intro a rest p hga hia hh ha hpa hqa hrec ih hn hpq
    obtain ⟨hft, hkeepa, hrem⟩ := fallthrough_flags env G a hga hia hh ha
    have hcom : commitsRecord env G q a = true := by
      simp [commitsRecord, hga, hft, hqa]
    have hn' := nodup_gid_tail G a rest hn
    have hpq' : ∀ x ∈ rest, x.groupId = G →
        ((x.gid ∈ removeGid p a.gid) ↔ (x.gid ∈ q)) := by
      intro x hx hxg
      have hne : x.gid ≠ a.gid := gid_ne_of_nodup G a x rest hn hga hx hxg
      rw [mem_removeGid]
      constructor
      · rintro ⟨hxp, _⟩
        exact (hpq x (List.mem_cons_of_mem a hx) hxg).mp hxp
      · intro hxq
        exact ⟨(hpq x (List.mem_cons_of_mem a hx) hxg).mpr hxq, hne⟩
    rw [ih hn' hpq', pending_filter_cons_remove env G a rest p hrem]
    simp [List.filter_cons, hcom, hkeepa]
  · intro a rest p _ _ _ _ _ _ hrec
    rw [hsucc a.gid true] at hrec
    exact (Bool.true_eq_false.mp hrec).elim
  · intro a rest p hga hia hh ha hqa ih hn hpq
    obtain ⟨hft, hkeepa, hrem⟩ := fallthrough_flags env G a hga hia hh ha
    have hcom : commitsRecord env G q a = false := by
      simp [commitsRecord, hqa]
    have hn' := nodup_gid_tail G a rest hn
    have hpq' : ∀ x ∈ rest, x.groupId = G →
        ((x.gid ∈ removeGid p a.gid) ↔ (x.gid ∈ q)) := by
      intro x hx hxg
      have hne : x.gid ≠ a.gid := gid_ne_of_nodup G a x rest hn hga hx hxg
      rw [mem_removeGid]
      constructor
      · rintro ⟨hxp, _⟩
        exact (hpq x (List.mem_cons_of_mem a hx) hxg).mp hxp
      · intro hxq
        exact ⟨(hpq x (List.mem_cons_of_mem a hx) hxg).mpr hxq, hne⟩
    rw [ih hn' hpq', pending_filter_cons_remove env G a rest p hrem]
    simp [List.filter_cons, hcom, hkeepa]

end Citus

namespace Citus

/-- Gids remaining in the pending set after the scan, in closed form. -/
def scanPendingFormula (env : Env) (G : Int) (records : List RecoveryRecord)
    (p : List String) : List String :=
  p.filter (fun g => !(records.any
    (fun x => removesFromPending env G x && decide (x.gid = g))))

/-- Gids the remaining-abort loop rolls back, in closed form. -/
def abortGids (env : Env) (G : Int) (records : List RecoveryRecord)
    (p : List String) : List String :=
  (scanPendingFormula env G records p).filter
    (fun g => !IsTransactionInProgress env.activeXactNumbers g)

/-- Closed form of a whole `RecoverWorkerTransactions` call on a
reachable node whose commands all succeed. -/
def workerFormula (env : Env) (node : NodeInfo)
    (records : List RecoveryRecord) : NodeOutcome :=
  let G := node.groupId
  let pd := (PendingWorkerTransactionList env.coordinatorId node.prepared).dedup
  let commits := records.filter (fun x => commitsRecord env G pd x)
  let aborts := abortGids env G records pd
  { count := commits.length + aborts.length,
    commands := commits.map (fun x => (x.gid, true)) ++
      aborts.map (fun g => (g, false)),
    records := records.filter (fun x => keepsRecord env G x),
    node := { node with
              prepared := node.prepared.filter
                (fun g => g ∉ commits.map RecoveryRecord.gid ++ aborts) },
    warned := false }

lemma resolved_gids_of_success (env : Env)
    (hsucc : ∀ g b, RecoverPreparedTransactionOnWorker env g b = true)
    (cmds : List (String × Bool)) :
    ResolvedGids env cmds = cmds.map Prod.fst := by
  unfold ResolvedGids
  rw [List.filter_eq_self.mpr (fun c _ => hsucc c.1 c.2)]

lemma worker_characterisation (env : Env) (node : NodeInfo)
    (records : List RecoveryRecord)
    (hsucc : ∀ g b, RecoverPreparedTransactionOnWorker env g b = true)
    (hconn : node.connectionOK = true)
    (hn : ((records.filter (fun x => decide (x.groupId = node.groupId))).map
      RecoveryRecord.gid).Nodup) :
    RecoverWorkerTransactions env node records =
      workerFormula env node records := by
  unfold RecoverWorkerTransactions
  rw [hconn]
  simp only [Bool.not_true, Bool.false_eq_true, if_false]
  unfold RecoverWorkerTransactionsPQ
  rw [scan_characterisation env node.groupId
    (PendingWorkerTransactionList env.coordinatorId node.prepared).dedup hsucc
    records
    (PendingWorkerTransactionList env.coordinatorId node.prepared).dedup hn
    (fun x _ _ => Iff.rfl)]
  simp only [Bool.false_eq_true, if_false]
  rw [abort_characterisation env hsucc]
  rw [resolved_gids_of_success env hsucc]
  unfold workerFormula abortGids scanPendingFormula
  simp [List.map_append, List.map_map, Function.comp, hconn]

end Citus

namespace Citus

lemma scan_kept_other_group (env : Env) (G : Int) (q : List String) (H : Int)
    (hne : H ≠ G) :
    ∀ records p,
      (RecordScanPhase env G q records p).keptRecords.filter
        (fun r => decide (r.groupId = H)) =
      records.filter (fun r => decide (r.groupId = H)) := by
  refine scan_cases env G q
    (fun records _ res =>
      res.keptRecords.filter (fun r => decide (r.groupId = H)) =
        records.filter (fun r => decide (r.groupId = H))) ?_ ?_ ?_ ?_ ?_ ?_
  · intro p
    rfl
  · intro a rest p _ ih
    simp only [List.filter_cons, ih]
  · intro a rest p _ _ _ ih
    simp only [List.filter_cons, ih]
  · intro a rest p hga _ _ _ _ _ _ ih
    have haH : decide (a.groupId = H) = false := by
      subst hga
      exact decide_eq_false (fun h => hne h.symm)
    simp only [List.filter_cons, haH, Bool.false_eq_true, if_false, ih]
  · intro a rest p _ _ _ _ _ _ _
    rfl
  · intro a rest p hga _ _ _ _ ih
    have haH : decide (a.groupId = H) = false := by
      subst hga
      exact decide_eq_false (fun h => hne h.symm)
    simp only [List.filter_cons, haH, Bool.false_eq_true, if_false, ih]

lemma worker_other_group (env : Env) (node : NodeInfo)
    (records : List RecoveryRecord) (H : Int) (hne : H ≠ node.groupId) :
    (RecoverWorkerTransactions env node records).records.filter
      (fun r => decide (r.groupId = H)) =
    records.filter (fun r => decide (r.groupId = H)) := by
  by_cases hconn : node.connectionOK
  · unfold RecoverWorkerTransactions
    rw [hconn]
    simp only [Bool.not_true, Bool.false_eq_true, if_false]
    unfold RecoverWorkerTransactionsPQ
    by_cases hf : (RecordScanPhase env node.groupId
        (PendingWorkerTransactionList env.coordinatorId node.prepared).dedup
        records
        (PendingWorkerTransactionList env.coordinatorId
          node.prepared).dedup).failed
    · simp only [hf, if_true]
      exact scan_kept_other_group env node.groupId _ H hne records _
    · simp only [hf, Bool.false_eq_true, if_false]
      exact scan_kept_other_group env node.groupId _ H hne records _
  · unfold RecoverWorkerTransactions
    rw [Bool.not_eq_true] at hconn
    rw [hconn]
    rfl

lemma worker_node_groupId (env : Env) (node : NodeInfo)
    (records : List RecoveryRecord) :
    (RecoverWorkerTransactions env node records).node.groupId =
      node.groupId := by
  by_cases hconn : node.connectionOK <;>
    simp [RecoverWorkerTransactions, hconn]

lemma worker_node_connectionOK (env : Env) (node : NodeInfo)
    (records : List RecoveryRecord) :
    (RecoverWorkerTransactions env node records).node.connectionOK =
      node.connectionOK := by
  by_cases hconn : node.connectionOK <;>
    simp [RecoverWorkerTransactions, hconn]

lemma worker_records_sublist (env : Env) (node : NodeInfo)
    (records : List RecoveryRecord) :
    List.Sublist (RecoverWorkerTransactions env node records).records
      records := by
  by_cases hconn : node.connectionOK
  · unfold RecoverWorkerTransactions
    rw [hconn]
    simp only [Bool.not_true, Bool.false_eq_true, if_false]
    unfold RecoverWorkerTransactionsPQ
    by_cases hf : (RecordScanPhase env node.groupId
        (PendingWorkerTransactionList env.coordinatorId node.prepared).dedup
        records
        (PendingWorkerTransactionList env.coordinatorId
          node.prepared).dedup).failed
    · simp only [hf, if_true]
      exact scan_kept_sublist env node.groupId _ records _
    · simp only [hf, Bool.false_eq_true, if_false]
      exact scan_kept_sublist env node.groupId _ records _
  · unfold RecoverWorkerTransactions
    rw [Bool.not_eq_true] at hconn
    rw [hconn]
    exact List.Sublist.refl records

lemma pass_preserves_other_groups (env : Env) (H : Int) :
    ∀ (nodes : List NodeInfo) (records : List RecoveryRecord),
      (∀ m ∈ nodes, m.groupId ≠ H) →
      (RecoverTwoPhaseCommits env records nodes).records.filter
        (fun r => decide (r.groupId = H)) =
      records.filter (fun r => decide (r.groupId = H)) := by
  intro nodes
  induction nodes with
  | nil => intro records _; rfl
  | cons n rest ih =>
    intro records hgrp
    unfold RecoverTwoPhaseCommits
    rw [ih _ (fun m hm => hgrp m (List.mem_cons_of_mem n hm))]
    exact worker_other_group env n records H
      (fun h => hgrp n (List.mem_cons_self n rest) h.symm)

lemma nodup_gid_filter (records : List RecoveryRecord)
    (pr : RecoveryRecord → Bool)
    (h : (records.map RecoveryRecord.gid).Nodup) :
    ((records.filter pr).map RecoveryRecord.gid).Nodup :=
  h.sublist ((List.filter_sublist records).map RecoveryRecord.gid)

end Citus

namespace Citus

/-- After a successful `RecoverWorkerTransactions` call on a node, a
second call on the resulting node state — against any record store that
agrees with the first call's output on the node's group — resolves
nothing. -/
lemma second_worker_pass_zero (env : Env) (node : NodeInfo)
    (records R2 : List RecoveryRecord)
    (hsucc : ∀ g b, RecoverPreparedTransactionOnWorker env g b = true)
    (hn : ((records.filter (fun x => decide (x.groupId = node.groupId))).map
      RecoveryRecord.gid).Nodup)
    (hR2 : R2.filter (fun r => decide (r.groupId = node.groupId)) =
      (RecoverWorkerTransactions env node records).records.filter
        (fun r => decide (r.groupId = node.groupId))) :
    (RecoverWorkerTransactions env
      (RecoverWorkerTransactions env node records).node R2).count = 0 := by
  cases hconn : node.connectionOK
  · simp [RecoverWorkerTransactions, hconn]
  · rw [worker_characterisation env node records hsucc hconn hn] at hR2 ⊢
    have hrecords1 : (workerFormula env node records).records =
        records.filter (fun x => keepsRecord env node.groupId x) := rfl
    rw [hrecords1] at hR2
    have hgrp1 : (workerFormula env node records).node.groupId =
        node.groupId := rfl
    have hconn1 : (workerFormula env node records).node.connectionOK = true := by
      rw [show (workerFormula env node records).node.connectionOK =
        node.connectionOK from rfl]
      exact hconn
    have hn2 : ((R2.filter (fun x =>
        decide (x.groupId = (workerFormula env node records).node.groupId))).map
        RecoveryRecord.gid).Nodup := by
      rw [hgrp1, hR2]
      exact hn.sublist
        (((List.filter_sublist records).filter
          (fun r => decide (r.groupId = node.groupId))).map RecoveryRecord.gid)
    rw [worker_characterisation env (workerFormula env node records).node R2
      hsucc hconn1 hn2]
    -- names for the first pass's aggregates
    have hprepared1 : (workerFormula env node records).node.prepared =
        node.prepared.filter (fun g => g ∉
          ((records.filter (fun x => commitsRecord env node.groupId
            (PendingWorkerTransactionList env.coordinatorId
              node.prepared).dedup x)).map RecoveryRecord.gid ++
           abortGids env node.groupId records
            (PendingWorkerTransactionList env.coordinatorId
              node.prepared).dedup)) := rfl
    -- the second pass commits nothing
    have hcommits2 : R2.filter (fun x =>
        commitsRecord env (workerFormula env node records).node.groupId
          (PendingWorkerTransactionList env.coordinatorId
            (workerFormula env node records).node.prepared).dedup x) = [] := by
      rw [List.filter_eq_nil_iff]
      intro x hx
      rw [hgrp1]
      by_cases hxg : x.groupId = node.groupId
      · have hxmem : x ∈ R2.filter
            (fun r => decide (r.groupId = node.groupId)) :=
          List.mem_filter.mpr ⟨hx, by simp [hxg]⟩
        rw [hR2] at hxmem
        have hxk' : keepsRecord env node.groupId x = true :=
          (List.mem_filter.mp ((List.mem_filter.mp hxmem).1)).2
        have hft : fallsThrough env x = false := by
          unfold keepsRecord at hxk'
          simp [hxg] at hxk'
          exact hxk'
        simp [commitsRecord, hft]
      · simp [commitsRecord, hxg]
    -- the second pass aborts nothing
    have haborts2 : abortGids env
        (workerFormula env node records).node.groupId R2
        (PendingWorkerTransactionList env.coordinatorId
          (workerFormula env node records).node.prepared).dedup = [] := by
      rw [hgrp1]
      unfold abortGids scanPendingFormula
      rw [List.filter_eq_nil_iff]
      intro g hg
      cases hipg : IsTransactionInProgress env.activeXactNumbers g
      case true => simp [hipg]
      exfalso
      obtain ⟨hgpd2, hgsurv⟩ := List.mem_filter.mp hg
      have hgP2 := List.mem_dedup.mp hgpd2
      rw [hprepared1] at hgP2
      obtain ⟨hgprep2, hgpat⟩ := List.mem_filter.mp hgP2
      obtain ⟨hgprep, hgnotres'⟩ := List.mem_filter.mp hgprep2
      have hgnotres : g ∉
          ((records.filter (fun x => commitsRecord env node.groupId
            (PendingWorkerTransactionList env.coordinatorId
              node.prepared).dedup x)).map RecoveryRecord.gid ++
           abortGids env node.groupId records
            (PendingWorkerTransactionList env.coordinatorId
              node.prepared).dedup) := by
        simpa using hgnotres'
      have hgpd : g ∈ (PendingWorkerTransactionList env.coordinatorId
          node.prepared).dedup :=
        List.mem_dedup.mpr (List.mem_filter.mpr ⟨hgprep, hgpat⟩)
      cases hany : records.any
          (fun x => removesFromPending env node.groupId x &&
            decide (x.gid = g))
      · -- no record removed g: the first pass aborted it
        have hgpf : g ∈ scanPendingFormula env node.groupId records
            (PendingWorkerTransactionList env.coordinatorId
              node.prepared).dedup :=
          List.mem_filter.mpr ⟨hgpd, by rw [hany]; rfl⟩
        have : g ∈ abortGids env node.groupId records
            (PendingWorkerTransactionList env.coordinatorId
              node.prepared).dedup :=
          List.mem_filter.mpr ⟨hgpf, by rw [hipg]; rfl⟩
        exact hgnotres (List.mem_append.mpr (Or.inr this))
      · -- some record removed g in the first pass
        obtain ⟨x, hxrec, hxp⟩ := List.any_eq_true.mp hany
        have hxp' : removesFromPending env node.groupId x = true ∧
            decide (x.gid = g) = true := by
          simpa [Bool.and_eq_true] using hxp
        obtain ⟨hrem, hgid'⟩ := hxp'
        have hgidx : x.gid = g := of_decide_eq_true hgid'
        obtain ⟨⟨hxg, _⟩, _⟩ : (x.groupId = node.groupId ∧
            IsTransactionInProgress env.activeXactNumbers x.gid = false) ∧
            outerAbandoned env x = false := by
          simpa [removesFromPending, Bool.and_eq_true] using hrem
        cases hkx : keepsRecord env node.groupId x
        · -- the record fell through: the first pass committed g
          have hftx : fallsThrough env x = true := by
            unfold keepsRecord at hkx
            simp [hxg] at hkx
            exact hkx
          have hcom : commitsRecord env node.groupId
              (PendingWorkerTransactionList env.coordinatorId
                node.prepared).dedup x = true := by
            rw [commitsRecord, hftx, hgidx]
            simp [hxg, List.mem_dedup.mp hgpd, List.mem_dedup.mpr
              (List.mem_dedup.mp hgpd)]
          have : g ∈ (records.filter (fun x => commitsRecord env node.groupId
              (PendingWorkerTransactionList env.coordinatorId
                node.prepared).dedup x)).map RecoveryRecord.gid :=
            List.mem_map.mpr ⟨x, List.mem_filter.mpr ⟨hxrec, hcom⟩, hgidx⟩
          exact hgnotres (List.mem_append.mpr (Or.inl this))
        · -- the record was kept: it removes g from the second pass too
          have hxrecords1 : x ∈ (records.filter (fun x =>
              keepsRecord env node.groupId x)).filter
              (fun r => decide (r.groupId = node.groupId)) :=
            List.mem_filter.mpr
              ⟨List.mem_filter.mpr ⟨hxrec, hkx⟩, by simp [hxg]⟩
          rw [← hR2] at hxrecords1
          have hxR2 : x ∈ R2 := (List.mem_filter.mp hxrecords1).1
          have : R2.any (fun x => removesFromPending env node.groupId x &&
              decide (x.gid = g)) = true :=
            List.any_eq_true.mpr ⟨x, hxR2, by rw [hrem, hgid']; rfl⟩
          rw [this] at hgsurv
          simp at hgsurv
    -- both sources of resolution are empty
    rw [show (workerFormula env (workerFormula env node records).node
        R2).count =
      (R2.filter (fun x =>
        commitsRecord env (workerFormula env node records).node.groupId
          (PendingWorkerTransactionList env.coordinatorId
            (workerFormula env node records).node.prepared).dedup x)).length +
      (abortGids env (workerFormula env node records).node.groupId R2
        (PendingWorkerTransactionList env.coordinatorId
          (workerFormula env node records).node.prepared).dedup).length
      from rfl]
    rw [hcommits2, haborts2]
    rfl

end Citus

namespace Citus

/-- Lifting of `second_worker_pass_zero` to a whole pass: after one
recovery pass, re-running the pass on the resulting node states and a
record store that agrees with the pass output on every node's group
resolves nothing, provided record gids are globally unique, each group
has one node, and all commands of the first pass succeeded. -/
lemma pass_second_zero (env : Env)
    (hsucc : ∀ g b, RecoverPreparedTransactionOnWorker env g b = true) :
    ∀ (nodes : List NodeInfo) (records R2 : List RecoveryRecord),
      (records.map RecoveryRecord.gid).Nodup →
      (nodes.map NodeInfo.groupId).Nodup →
      (∀ m ∈ nodes, R2.filter (fun r => decide (r.groupId = m.groupId)) =
        (RecoverTwoPhaseCommits env records nodes).records.filter
          (fun r => decide (r.groupId = m.groupId))) →
      (RecoverTwoPhaseCommits env R2
        (RecoverTwoPhaseCommits env records nodes).nodes).count = 0 := by
  intro nodes
  induction nodes with
  | nil =>
    intro records R2 _ _ _
    rfl
  | cons n rest ih =>
    intro records R2 hgid hgrp hR2
    have hpassnodes : (RecoverTwoPhaseCommits env records (n :: rest)).nodes =
        (RecoverWorkerTransactions env n records).node ::
        (RecoverTwoPhaseCommits env
          (RecoverWorkerTransactions env n records).records rest).nodes := rfl
    have hpassrecords :
        (RecoverTwoPhaseCommits env records (n :: rest)).records =
        (RecoverTwoPhaseCommits env
          (RecoverWorkerTransactions env n records).records rest).records := rfl
    have hrestgrp : ∀ m ∈ rest, m.groupId ≠ n.groupId := by
      intro m hm heq
      exact (List.nodup_cons.mp hgrp).1 (heq ▸ List.mem_map.mpr ⟨m, hm, rfl⟩)
    have hheadR2 : R2.filter (fun r => decide (r.groupId = n.groupId)) =
        (RecoverWorkerTransactions env n records).records.filter
          (fun r => decide (r.groupId = n.groupId)) := by
      have h1 := hR2 n (List.mem_cons_self n rest)
      rw [hpassrecords] at h1
      rw [h1]
      exact pass_preserves_other_groups env n.groupId rest
        (RecoverWorkerTransactions env n records).records hrestgrp
    have hheadzero : (RecoverWorkerTransactions env
        (RecoverWorkerTransactions env n records).node R2).count = 0 :=
      second_worker_pass_zero env n records R2 hsucc
        (nodup_gid_filter records _ hgid) hheadR2
    have hgid' : ((RecoverWorkerTransactions env n records).records.map
        RecoveryRecord.gid).Nodup :=
      hgid.sublist ((worker_records_sublist env n records).map _)
    have hgrp' : (rest.map NodeInfo.groupId).Nodup :=
      (List.nodup_cons.mp hgrp).2
    have hR2' : ∀ m ∈ rest,
        (RecoverWorkerTransactions env
          (RecoverWorkerTransactions env n records).node R2).records.filter
            (fun r => decide (r.groupId = m.groupId)) =
        (RecoverTwoPhaseCommits env
          (RecoverWorkerTransactions env n records).records rest).records.filter
            (fun r => decide (r.groupId = m.groupId)) := by
      intro m hm
      have hmne : m.groupId ≠
          (RecoverWorkerTransactions env n records).node.groupId := by
        rw [worker_node_groupId]
        exact hrestgrp m hm
      rw [worker_other_group env _ R2 m.groupId hmne]
      have h2 := hR2 m (List.mem_cons_of_mem n hm)
      rw [hpassrecords] at h2
      exact h2
    have htail := ih (RecoverWorkerTransactions env n records).records
      (RecoverWorkerTransactions env
        (RecoverWorkerTransactions env n records).node R2).records
      hgid' hgrp' hR2'
    rw [hpassnodes]
    have hsplit : (RecoverTwoPhaseCommits env R2
        ((RecoverWorkerTransactions env n records).node ::
          (RecoverTwoPhaseCommits env
            (RecoverWorkerTransactions env n records).records rest).nodes)).count =
      (RecoverWorkerTransactions env
        (RecoverWorkerTransactions env n records).node R2).count +
      (RecoverTwoPhaseCommits env
        (RecoverWorkerTransactions env
          (RecoverWorkerTransactions env n records).node R2).records
        (RecoverTwoPhaseCommits env
          (RecoverWorkerTransactions env n records).records rest).nodes).count :=
      rfl
    rw [hsplit, hheadzero, htail]

/-- C5: running the recovery pass twice in succession, with no
intervening activity (the live set, outer-transaction state, command
outcomes and connection states unchanged, the record store and the
nodes' prepared transactions carried over from the first pass), yields
a resolved count of 0 on the second run. Stated with globally unique
record gids, one node per group, and all first-pass commands
succeeding. -/
theorem recovery_pass_idempotent (env : Env)
    (records : List RecoveryRecord) (nodes : List NodeInfo)
    (o : PassOutcome) (ho : o = RecoverTwoPhaseCommits env records nodes)
    (hgid : (records.map RecoveryRecord.gid).Nodup)
    (hgrp : (nodes.map NodeInfo.groupId).Nodup)
    (hsucc : ∀ g b, RecoverPreparedTransactionOnWorker env g b = true) :
    (RecoverTwoPhaseCommits env o.records o.nodes).count = 0 := by
  subst ho
  exact pass_second_zero env hsucc nodes records
    (RecoverTwoPhaseCommits env records nodes).records hgid hgrp
    (fun m _ => rfl)

theorem recovery_pass_idempotent_witness :
    (RecoverTwoPhaseCommits envAllOK
      (RecoverTwoPhaseCommits envAllOK [⟨0, "citus_0_123_55_3", none⟩]
        [⟨0, true, ["citus_0_123_55_3"]⟩]).records
      (RecoverTwoPhaseCommits envAllOK [⟨0, "citus_0_123_55_3", none⟩]
        [⟨0, true, ["citus_0_123_55_3"]⟩]).nodes).count = 0 :=
  recovery_pass_idempotent envAllOK [⟨0, "citus_0_123_55_3", none⟩]
    [⟨0, true, ["citus_0_123_55_3"]⟩] _ rfl (by decide) (by decide)
    (fun _ _ => rfl)

end Citus
